import Mathlib

/-!
Verification development for the Holokernel2 sources (holographic_kernel.c and
the two unnamed concatenated revisions).  The C code is shallowly embedded:

* machine integers are modelled as Nat with explicit reduction mod 2^32 where
  the C code computes in uint32_t / size_t (overflow is modelled faithfully);
* pointers into the kernel heap are modelled as byte offsets from the start of
  the arena (the arena base address appears as an explicit parameter where the
  code compares raw addresses, as in apply_kernel_patch);
* C float values are idealized as exact rationals; float literals such as 0.2f
  are taken at their decimal value.  Branch conditions that compare against
  such constants are therefore exact where the code's binary32 rounding is
  within one ulp; every claim settled below has been checked to be insensitive
  to that idealization (concrete inputs are chosen far from the boundaries).
  The cosine-similarity function, which uses a bit-trick sqrtf, is not
  expressible in exact rational arithmetic and is passed as an explicit
  parameter (simFn) to the functions that consume it; every theorem below is
  either independent of it or instantiates it concretely;
* the raw in-memory bytes of a float buffer (hashed by hash_data and copied by
  apply_kernel_patch) are obtained through an executable binary32
  round-to-nearest-even encoder (float32bits / floatBytes below);
* kfree can re-enter the garbage collector when memory pressure is high; this
  re-entrant collection (an unbounded recursion through global state in the C
  source) is outside the modelled fragment: operations that would trigger it
  return none.  All theorems about those operations are stated on the some
  results, i.e. on executions in which no kfree happens above the 80%
  pressure threshold.

The allocator embedded below is the fixed-metadata-pool revision of kmalloc
(part_000 lines 644-683), which the specification designates as the
authoritative variant; the entity/collective/patch subsystems follow the most
complete revision (part_000 lines 1943-2901).
-/

set_option maxRecDepth 8000

/-- KERNEL_HEAP_SIZE (0xC0000, a 768KB arena). -/
def KERNEL_HEAP_SIZE : ℕ := 0xC0000

/-- MAX_ALLOCATIONS: size of the dedicated metadata-record pool. -/
def MAX_ALLOCATIONS : ℕ := 512

/-- INITIAL_DIMENSIONS: capacity (in floats) of every fresh HyperVector. -/
def INITIAL_DIMENSIONS : ℕ := 512

/-- MAX_DIMENSIONS. -/
def MAX_DIMENSIONS : ℕ := 2048

/-- MAX_THOUGHTS: capacity of the collective thought buffer. -/
def MAX_THOUGHTS : ℕ := 64

/-- MAX_ENTITIES: capacity of the entity pool. -/
def MAX_ENTITIES : ℕ := 32

/-- MAX_MEMORY_ENTRIES: capacity of the holographic associative memory. -/
def MAX_MEMORY_ENTRIES : ℕ := 128

/-- MAX_GENES_PER_ENTITY. -/
def MAX_GENES_PER_ENTITY : ℕ := 16

/-- Reduction modulo 2^32, the semantics of uint32_t / size_t arithmetic. -/
def wrap32 (n : ℕ) : ℕ := n % 2 ^ 32

/-- The aligned size computed by kmalloc: (size + 3) & ~3 in 32-bit
arithmetic, i.e. the wrapped size + 3 with the two low bits cleared. -/
def align4 (size : ℕ) : ℕ := wrap32 (size + 3) / 4 * 4

/-- One allocation-tracking record (mem_block_t).  poolIdx is the index of the
record inside the dedicated metadata_pool array; ptr is the arena offset
returned to the caller; the owner back-reference is always NULL at kmalloc
time. -/
structure MemBlock where
  poolIdx : ℕ
  ptr : ℕ
  size : ℕ
  allocation_id : ℕ
  owner : Option ℕ
  is_garbage : Bool
  deriving DecidableEq, Repr

/-- Allocator state: the bump offset, the free metadata-record list (pool
indices, in list order), the live allocation list (most recent first, as the
code pushes on the head), and the allocation id counter. -/
structure AllocState where
  heap_offset : ℕ
  free_metadata_list : List ℕ
  allocation_list : List MemBlock
  allocation_counter : ℕ
  deriving DecidableEq, Repr

/-- The allocator state after initialize_metadata_pool: offset 0, all
MAX_ALLOCATIONS records free (in array order), no live allocations. -/
def initAllocState : AllocState :=
  { heap_offset := 0
    free_metadata_list := List.range MAX_ALLOCATIONS
    allocation_list := []
    allocation_counter := 0 }

/-- kmalloc (part_000 lines 651-683, the fixed-metadata revision).  Returns
the allocated arena offset (NULL is modelled as none) together with the new
allocator state.  Zero-size requests fail; the bounds check compares
heap_offset + aligned_size against KERNEL_HEAP_SIZE in uint32 arithmetic; a
metadata record is popped from the dedicated free pool, and if none is left
the allocation fails even though arena space remains.  All three failure
exits leave the state untouched. -/
def kmalloc (size : ℕ) (st : AllocState) : Option ℕ × AllocState :=
  if size = 0 then (none, st)
  else
    let aligned_size := align4 size
    if KERNEL_HEAP_SIZE ≤ wrap32 (st.heap_offset + aligned_size) then (none, st)
    else
      match st.free_metadata_list with
      | [] => (none, st)
      | b :: rest =>
        (some st.heap_offset,
          { heap_offset := wrap32 (st.heap_offset + aligned_size)
            free_metadata_list := rest
            allocation_list :=
              { poolIdx := b
                ptr := st.heap_offset
                size := aligned_size
                allocation_id := st.allocation_counter
                owner := none
                is_garbage := false } :: st.allocation_list
            allocation_counter := st.allocation_counter + 1 })

/-- Memory pressure exceeds the 80% threshold: 1 - free/capacity > 0.8,
equivalently 5 * free < capacity (float constants idealized). -/
def pressureAbove08 (st : AllocState) : Bool :=
  5 * (KERNEL_HEAP_SIZE - st.heap_offset) < KERNEL_HEAP_SIZE

/-- Free fraction below 0.2 — the trigger condition kfree tests before
re-entering the collector (the same inequality as pressureAbove08). -/
def kfreeTriggersGC (st : AllocState) : Bool := pressureAbove08 st

/-- Mark the first allocation record matching ptr as garbage (the scan in
kfree stops at the first hit). -/
def markGarbage (p : ℕ) : List MemBlock → List MemBlock
  | [] => []
  | b :: rest =>
    if b.ptr = p then { b with is_garbage := true } :: rest
    else b :: markGarbage p rest

/-- kfree (part_000 lines 684-704).  Marks the matching record garbage; an
unknown pointer is a warned no-op.  When the post-free pressure is above the
threshold the C code immediately re-enters the garbage collector; that
re-entrant collection is outside the modelled fragment, so the function
returns none there. -/
def kfree (p : Option ℕ) (st : AllocState) : Option AllocState :=
  match p with
  | none => some st
  | some ptr =>
    if st.allocation_list.any (fun b => b.ptr = ptr) then
      if kfreeTriggersGC st then none
      else some { st with allocation_list := markGarbage ptr st.allocation_list }
    else some st

/-- The list of (offset, requested size) ranges handed out by a sequence of
kmalloc calls, threading the allocator state. -/
def kmallocRun : List ℕ → AllocState → List (ℕ × ℕ) × AllocState
  | [], st => ([], st)
  | s :: rest, st =>
    let (r, st1) := kmalloc s st
    let (acc, st2) := kmallocRun rest st1
    match r with
    | none => (acc, st2)
    | some p => ((p, s) :: acc, st2)

/-- Two half-open byte ranges are disjoint. -/
def RangesDisjoint (a b : ℕ × ℕ) : Prop := a.1 + a.2 ≤ b.1 ∨ b.1 + b.2 ≤ a.1

theorem kmalloc_fail_no_side_effect (s : ℕ) (st st1 : AllocState)
    (h : kmalloc s st = (none, st1)) : st1 = st := by
  unfold kmalloc at h
  by_cases h0 : s = 0
  · simp [h0] at h; exact h.symm
  · simp only [h0, if_false] at h
    by_cases h1 : KERNEL_HEAP_SIZE ≤ wrap32 (st.heap_offset + align4 s)
    · simp [h1] at h; exact h.symm
    · simp only [h1, if_false] at h
      cases hm : st.free_metadata_list with
      | nil => rw [hm] at h; simp at h; exact h.symm
      | cons b rest => rw [hm] at h; simp at h

/-- C1: the specification demands that a request whose size plus the current
heap offset exceeds the arena capacity fail with the no-value sentinel and an
unchanged heap_offset.  The code computes heap_offset + size in 32-bit
arithmetic, so a request of 2^32 - 2 bytes on the freshly initialized
allocator (offset 0 + 2^32 - 2, far above the 0xC0000 capacity) wraps: the
aligned size becomes 0, the bounds check passes, and the call SUCCEEDS,
returning offset 0 while consuming a metadata record and zero arena bytes;
the very next 4-byte request is handed the same address 0, so the disjointness
guarantee collapses as well.  This evaluates the embedded kmalloc at that
failing input. -/
theorem kmalloc_overflow_check_bypass :
    KERNEL_HEAP_SIZE < initAllocState.heap_offset + (2 ^ 32 - 2) ∧
    (kmalloc (2 ^ 32 - 2) initAllocState).1 = some 0 ∧
    (kmalloc (2 ^ 32 - 2) initAllocState).2.heap_offset = initAllocState.heap_offset ∧
    (kmalloc 4 (kmalloc (2 ^ 32 - 2) initAllocState).2).1 = some 0 := by
  refine ⟨by decide, ?_, ?_, ?_⟩ <;> decide

/-- C2: every successful kmalloc draws its tracking record from the head of
the dedicated free metadata pool (the free list shrinks by exactly that head,
the new record carries that pool index), advances the heap by exactly the
aligned request — so the metadata is never obtained by a recursive call into
the allocator — and, when the free metadata pool is empty, the allocation
fails with no state change even though arena space remains. -/
theorem kmalloc_metadata_pool (s : ℕ) (st : AllocState) :
    (∀ p st1, kmalloc s st = (some p, st1) →
      ∃ b rest, st.free_metadata_list = b :: rest ∧
        st1.free_metadata_list = rest ∧
        st1.allocation_list =
          { poolIdx := b, ptr := st.heap_offset, size := align4 s,
            allocation_id := st.allocation_counter, owner := none,
            is_garbage := false } :: st.allocation_list ∧
        st1.heap_offset = wrap32 (st.heap_offset + align4 s) ∧
        p = st.heap_offset) ∧
    (st.free_metadata_list = [] → s ≠ 0 →
      wrap32 (st.heap_offset + align4 s) < KERNEL_HEAP_SIZE →
      kmalloc s st = (none, st)) := by
  constructor
  · intro p st1 h
    unfold kmalloc at h
    by_cases h0 : s = 0
    · simp [h0] at h
    · simp only [h0, if_false] at h
      by_cases h1 : KERNEL_HEAP_SIZE ≤ wrap32 (st.heap_offset + align4 s)
      · simp [h1] at h
      · simp only [h1, if_false] at h
        cases hm : st.free_metadata_list with
        | nil => rw [hm] at h; simp at h
        | cons b rest =>
          rw [hm] at h
          simp only [Prod.mk.injEq, Option.some.injEq] at h
          exact ⟨b, rest, rfl, by rw [← h.2], by rw [← h.2], by rw [← h.2], h.1.symm⟩
  · intro hm h0 h1
    unfold kmalloc
    simp [h0, hm, not_le.mpr h1]

/-- An allocator state whose metadata pool is exhausted while the arena is
entirely free. -/
def exhaustedPoolState : AllocState :=
  { heap_offset := 0, free_metadata_list := [], allocation_list := [],
    allocation_counter := 0 }

/-- Witness for kmalloc_metadata_pool: an 8-byte allocation on the initialized
allocator pops pool record 0, and the same request on an allocator whose
metadata pool is exhausted fails although the whole arena is free. -/
theorem kmalloc_metadata_pool_witness :
    (∃ b rest, initAllocState.free_metadata_list = b :: rest ∧
      (kmalloc 8 initAllocState).2.free_metadata_list = rest ∧
      (kmalloc 8 initAllocState).2.allocation_list =
        { poolIdx := b, ptr := initAllocState.heap_offset, size := align4 8,
          allocation_id := initAllocState.allocation_counter, owner := none,
          is_garbage := false } :: initAllocState.allocation_list ∧
      (kmalloc 8 initAllocState).2.heap_offset =
        wrap32 (initAllocState.heap_offset + align4 8) ∧
      (0 : ℕ) = initAllocState.heap_offset) ∧
    kmalloc 8 exhaustedPoolState = (none, exhaustedPoolState) := by
  constructor
  · exact (kmalloc_metadata_pool 8 initAllocState).1 0 (kmalloc 8 initAllocState).2 rfl
  · exact (kmalloc_metadata_pool 8 _).2 rfl (by decide) (by decide)

/-- Round a rational to the nearest integer, ties to even (the IEEE-754
default rounding used when the C code stores computed floats). -/
def rne (q : ℚ) : ℤ :=
  let f := ⌊q⌋
  let r := q - (f : ℚ)
  if r < 1 / 2 then f
  else if 1 / 2 < r then f + 1
  else if f % 2 = 0 then f else f + 1

/-- 2^z as a rational, for integer (possibly negative) z. -/
def qpow2 (z : ℤ) : ℚ :=
  if 0 ≤ z then ((2 : ℚ) ^ z.toNat) else ((2 : ℚ) ^ (-z).toNat)⁻¹

/-- Floor of log2 of a positive rational (the binary32 exponent finder);
the bit-length estimate from numerator and denominator is corrected by at
most one comparison in each direction. -/
def qlog2 (q : ℚ) : ℤ :=
  let a : ℤ := (Nat.log 2 q.num.toNat : ℤ) - (Nat.log 2 q.den : ℤ)
  if qpow2 (a + 1) ≤ q then a + 1
  else if qpow2 a ≤ q then a
  else a - 1

/-- The IEEE-754 binary32 bit pattern of a rational value under
round-to-nearest-even (sign, biased exponent, 23-bit mantissa; subnormals and
overflow to infinity handled).  This realizes the in-memory representation of
the float values that hash_data and apply_kernel_patch read byte-wise. -/
def float32bits (q : ℚ) : ℕ :=
  if q = 0 then 0
  else
    let s : ℕ := if q < 0 then 2 ^ 31 else 0
    let a : ℚ := |q|
    let e : ℤ := max (qlog2 a) (-126)
    let m : ℤ := rne (a * qpow2 (23 - e))
    let mn : ℕ := m.toNat
    if mn = 0 then s
    else if 2 ^ 24 ≤ mn then
      if 254 ≤ e + 127 then s + 255 * 2 ^ 23
      else s + (e + 128).toNat * 2 ^ 23
    else if mn < 2 ^ 23 then s + mn
    else if 255 ≤ e + 127 then s + 255 * 2 ^ 23
    else s + (e + 127).toNat * 2 ^ 23 + (mn - 2 ^ 23)

/-- The four raw bytes of a float value in memory (little-endian i386). -/
def floatBytes (q : ℚ) : List ℕ :=
  let b := float32bits q
  [b % 256, b / 256 % 256, b / 2 ^ 16 % 256, b / 2 ^ 24 % 256]

/-- hash_data: FNV-1a over a byte sequence in uint32 arithmetic
(accumulator 2166136261, per byte XOR then multiply by 16777619). -/
def hash_data (bytes : List ℕ) : ℕ :=
  bytes.foldl (fun h b => wrap32 ((h ^^^ b) * 16777619)) 2166136261

/-- The bytes of a NUL-terminated C string literal (the usual strlen+1-sized
seed the kernel passes to create_hyper_vector). -/
def cstrBytes (s : String) : List ℕ := s.data.map Char.toNat ++ [0]

/-- One step of the linear congruential generator used to populate vector
dimensions: seed = (seed * 1103515245 + 12345) & 0x7fffffff. -/
def lcgStep (seed : ℕ) : ℕ := (seed * 1103515245 + 12345) % 2 ^ 31

/-- The dimension-filling loop of create_hyper_vector: for each of n
dimensions advance the LCG; when seed % 10 == 0 store
((seed % 2000) - 1000) / 1000 and count the dimension active, else leave the
zero from the initial memset.  Returns the buffer contents (in index order)
and the active-dimension count. -/
def hvFill (seed : ℕ) : ℕ → List ℚ × ℕ
  | 0 => ([], 0)
  | n + 1 =>
    let s := lcgStep seed
    let rest := hvFill s n
    if s % 10 = 0 then
      (((((s % 2000 : ℕ) : ℤ) - 1000 : ℤ) : ℚ) / 1000 :: rest.1, rest.2 + 1)
    else ((0 : ℚ) :: rest.1, rest.2)

/-- HyperVector: the buffer pointer is the arena offset returned by kmalloc
(none models a NULL data pointer); data is the buffer contents by value. -/
structure HyperVector where
  dataPtr : Option ℕ
  data : List ℚ
  capacity : ℕ
  active_dims : ℕ
  hash_sig : ℕ
  valid : Bool
  deriving DecidableEq, Repr

/-- The all-zero HyperVector value ({0} in the C code). -/
def invalidHV : HyperVector := ⟨none, [], 0, 0, 0, false⟩

/-- create_hyper_vector (part_000 lines 2325-2347): allocate a 512-float
buffer, zero-fill, seed the LCG with the FNV hash of the input bytes,
populate roughly every tenth dimension, then recompute hash_sig over the
first active_dims floats of the buffer (their raw bytes).  On allocation
failure returns an invalid vector and the allocator is left as kmalloc left
it. -/
def create_hyper_vector (input : List ℕ) (st : AllocState) :
    HyperVector × AllocState :=
  let res := kmalloc (INITIAL_DIMENSIONS * 4) st
  match res.1 with
  | none =>
    ({ dataPtr := none, data := [], capacity := INITIAL_DIMENSIONS,
       active_dims := 0, hash_sig := 0, valid := false }, res.2)
  | some p =>
    let seed := hash_data input
    let fill := hvFill seed INITIAL_DIMENSIONS
    ({ dataPtr := some p, data := fill.1, capacity := INITIAL_DIMENSIONS,
       active_dims := fill.2,
       hash_sig := hash_data ((fill.1.take fill.2).flatMap floatBytes),
       valid := true }, res.2)

/-- copy_hyper_vector (part_000 lines 2348-2359): deep-clone capacity,
active count and buffer contents through a fresh allocation; an invalid or
NULL source yields the all-zero vector without allocating; allocation failure
yields an invalid vector that still carries the source's capacity and active
count. -/
def copy_hyper_vector (src : HyperVector) (st : AllocState) :
    HyperVector × AllocState :=
  if src.valid = false ∨ src.dataPtr = none then (invalidHV, st)
  else
    let res := kmalloc (src.capacity * 4) st
    match res.1 with
    | none =>
      ({ dataPtr := none, data := [], capacity := src.capacity,
         active_dims := src.active_dims, hash_sig := 0, valid := false },
        res.2)
    | some p =>
      ({ dataPtr := some p, data := src.data, capacity := src.capacity,
         active_dims := src.active_dims, hash_sig := src.hash_sig,
         valid := true }, res.2)

/-- destroy_hyper_vector: release the buffer through kfree and clear the
pointer and validity flag; a NULL buffer is a no-op, so destruction is
idempotent.  Returns none when the embedded kfree would re-enter the
collector (outside the modelled fragment). -/
def destroy_hyper_vector (v : HyperVector) (st : AllocState) :
    Option (HyperVector × AllocState) :=
  match v.dataPtr with
  | none => some (v, st)
  | some p =>
    match kfree (some p) st with
    | none => none
    | some st1 => some ({ v with dataPtr := none, valid := false }, st1)

/-- C5: create_hyper_vector is fully deterministic in its input bytes — two
calls with identical input bytes, from any two allocator states in which the
backing allocation succeeds, produce bit-identical buffer contents, equal
active_dims and equal hash_sig. -/
theorem create_hyper_vector_deterministic (input : List ℕ)
    (st1 st2 : AllocState)
    (h1 : (create_hyper_vector input st1).1.valid = true)
    (h2 : (create_hyper_vector input st2).1.valid = true) :
    (create_hyper_vector input st1).1.data =
      (create_hyper_vector input st2).1.data ∧
    (create_hyper_vector input st1).1.active_dims =
      (create_hyper_vector input st2).1.active_dims ∧
    (create_hyper_vector input st1).1.hash_sig =
      (create_hyper_vector input st2).1.hash_sig := by
  simp only [create_hyper_vector] at h1 h2 ⊢
  cases ha : (kmalloc (INITIAL_DIMENSIONS * 4) st1).1 <;>
    cases hb : (kmalloc (INITIAL_DIMENSIONS * 4) st2).1 <;>
      simp [ha, hb] at h1 h2 ⊢

/-- Witness for create_hyper_vector_deterministic: the same seed string from
the initial allocator state and from the state left by an unrelated 8-byte
allocation yields identical data, active_dims and hash_sig. -/
theorem create_hyper_vector_deterministic_witness :
    (create_hyper_vector (cstrBytes "GENOME_ADAPTIVE") initAllocState).1.data =
      (create_hyper_vector (cstrBytes "GENOME_ADAPTIVE")
        (kmalloc 8 initAllocState).2).1.data ∧
    (create_hyper_vector (cstrBytes "GENOME_ADAPTIVE")
        initAllocState).1.active_dims =
      (create_hyper_vector (cstrBytes "GENOME_ADAPTIVE")
        (kmalloc 8 initAllocState).2).1.active_dims ∧
    (create_hyper_vector (cstrBytes "GENOME_ADAPTIVE")
        initAllocState).1.hash_sig =
      (create_hyper_vector (cstrBytes "GENOME_ADAPTIVE")
        (kmalloc 8 initAllocState).2).1.hash_sig :=
  create_hyper_vector_deterministic (cstrBytes "GENOME_ADAPTIVE")
    initAllocState (kmalloc 8 initAllocState).2 rfl rfl

/-- Gene: one HyperVector pattern, an integer fitness (uint32_t in this
revision), a mutability flag and a name; the chain is modelled as the list an
Entity owns. -/
structure Gene where
  pattern : HyperVector
  fitness : ℕ
  geneMutable : Bool
  name : String
  deriving DecidableEq, Repr

/-- Entity: one fixed slot of the pool (struct Entity of the most complete
revision; the specialization_scores float array is carried as a list). -/
structure Entity where
  id : ℕ
  state : HyperVector
  genome : List Gene
  gene_count : ℕ
  age : ℕ
  interaction_count : ℕ
  is_active : Bool
  specialization_scores : List ℚ
  resource_allocation : ℚ
  confidence : ℚ
  domain_name : String
  task_vector : HyperVector
  path_id : ℕ
  task_alignment : ℚ
  fitness_score : ℕ
  spawn_count : ℕ
  marked_for_gc : Bool
  is_mutant : Bool
  mutation_rate : ℕ
  deriving DecidableEq, Repr

/-- The sacrifice probability computed by the collector:
0.05 + (1 - confidence)*0.2 + (age/10000)*0.3 - (fitness/1000)*0.4
(float arithmetic idealized as exact rationals). -/
def sacrificeProbability (e : Entity) : ℚ :=
  1 / 20 + (1 - e.confidence) * (1 / 5) + ((e.age : ℚ) / 10000) * (3 / 10)
    - ((e.fitness_score : ℚ) / 1000) * (2 / 5)

/-- The integer the roll is compared against:
(uint32_t)(sacrifice_probability * 1000).  The C cast truncates toward zero;
for a negative operand the conversion to uint32_t is undefined behaviour in
C, modelled here as 0 (for probability*1000 >= 0 the floor below is exactly
the C truncation, and toNat sends every negative result to 0). -/
def sacrificeThreshold (e : Entity) : ℕ :=
  (⌊sacrificeProbability e * 1000⌋).toNat

/-- The pseudo-random roll: (global_timestamp * entity->id) in uint32
arithmetic, then % 1000. -/
def gcRoll (tick : ℕ) (e : Entity) : ℕ := wrap32 (tick * e.id) % 1000

/-- Whether the collector's sacrifice branch fires for this entity. -/
def gcSacrifices (tick : ℕ) (e : Entity) : Bool :=
  e.is_active && decide (gcRoll tick e < sacrificeThreshold e)

/-- destroy_hyper_vector's effect on the vector record itself (the allocator
bookkeeping of the embedded kfree is tracked where the collector is used as a
whole; at the per-entity level only the record fields matter). -/
def destroyedHV (v : HyperVector) : HyperVector :=
  { v with dataPtr := none, valid := false }

/-- The sacrifice branch of the collector: destroy the genome and both state
vectors, empty the gene count, clear the activity flag. -/
def gcDeactivate (e : Entity) : Entity :=
  { e with genome := [], gene_count := 0, is_active := false,
           state := destroyedHV e.state,
           task_vector := destroyedHV e.task_vector }

/-- The scan for the weakest gene: walk the chain keeping the index of the
first gene whose fitness is strictly below the best so far (first-seen wins
ties, as the C comparison is strict). -/
def weakestGeneIdxAux (best bestFit i : ℕ) : List Gene → ℕ
  | [] => best
  | g :: rest =>
    if g.fitness < bestFit then weakestGeneIdxAux i g.fitness (i + 1) rest
    else weakestGeneIdxAux best bestFit (i + 1) rest

/-- Index of the weakest gene of a genome (0 for the empty genome, where the
C code finds no weakest gene and does nothing). -/
def weakestGeneIdx : List Gene → ℕ
  | [] => 0
  | g :: rest => weakestGeneIdxAux 0 g.fitness 1 rest

/-- The non-sacrifice branch of the collector: evict the single
weakest-fitness gene, but only when a weakest gene exists and gene_count
exceeds 1. -/
def gcEvictWeakest (e : Entity) : Entity :=
  if e.genome ≠ [] ∧ 1 < e.gene_count then
    { e with genome := e.genome.eraseIdx (weakestGeneIdx e.genome),
             gene_count := e.gene_count - 1 }
  else e

/-- The per-entity body of perform_emergent_garbage_collection (part_000
lines 2259-2306): inactive entities are skipped; otherwise the roll decides
between full deactivation and weakest-gene eviction. -/
def gc_entity_step (tick : ℕ) (e : Entity) : Entity :=
  if e.is_active = false then e
  else if gcRoll tick e < sacrificeThreshold e then gcDeactivate e
  else gcEvictWeakest e

/-- The collector's entity loop: slots below active_entity_count get the
per-entity step, the rest of the pool is untouched. -/
def gcPassFrom (tick count i : ℕ) : List Entity → List Entity
  | [] => []
  | e :: rest =>
    (if i < count then gc_entity_step tick e else e)
      :: gcPassFrom tick count (i + 1) rest

/-- One garbage-collection pass over the entity pool. -/
def gc_entity_pass (tick count : ℕ) (pool : List Entity) : List Entity :=
  gcPassFrom tick count 0 pool

theorem weakestGeneIdxAux_lt (l : List Gene) :
    ∀ best fit i, best < i → weakestGeneIdxAux best fit i l < i + l.length := by
  induction l with
  | nil => intro best fit i h; simpa [weakestGeneIdxAux] using h
  | cons g rest ih =>
    intro best fit i h
    unfold weakestGeneIdxAux
    by_cases hf : g.fitness < fit
    · simp only [hf, if_true]
      have := ih i g.fitness (i + 1) (Nat.lt_succ_self i)
      simpa [Nat.add_assoc, Nat.add_comm, Nat.add_left_comm] using this
    · simp only [hf, if_false]
      have := ih best fit (i + 1) (Nat.lt_succ_of_lt h)
      simpa [Nat.add_assoc, Nat.add_comm, Nat.add_left_comm] using this

theorem weakestGeneIdx_lt (l : List Gene) (h : l ≠ []) :
    weakestGeneIdx l < l.length := by
  cases l with
  | nil => simp at h
  | cons g rest =>
    have := weakestGeneIdxAux_lt rest 0 g.fitness 1 Nat.one_pos
    simpa [weakestGeneIdx, Nat.add_comm] using this

theorem gcPassFrom_get (tick count : ℕ) (l : List Entity) :
    ∀ j i, (gcPassFrom tick count j l)[i]? =
      (l[i]?).map (fun e => if j + i < count then gc_entity_step tick e else e) := by
  induction l with
  | nil => intro j i; simp [gcPassFrom]
  | cons e rest ih =>
    intro j i
    cases i with
    | zero => simp [gcPassFrom]
    | succ k =>
      simp only [gcPassFrom, List.getElem?_cons_succ, ih (j + 1) k]
      have : j + 1 + k = j + (k + 1) := by omega
      rw [this]

/-- Helper: the per-entity collector step keeps at least one gene (and the
count in sync with the chain) whenever the sacrifice branch does not fire. -/
theorem gc_entity_step_keeps_gene (tick : ℕ) (e : Entity)
    (hsync : e.gene_count = e.genome.length) (hone : 1 ≤ e.gene_count)
    (hnotsac : gcSacrifices tick e = false) :
    1 ≤ (gc_entity_step tick e).gene_count ∧
      (gc_entity_step tick e).gene_count =
        (gc_entity_step tick e).genome.length := by
  unfold gc_entity_step gcEvictWeakest
  split_ifs with h1 h2 h3
  · exact ⟨hone, hsync⟩
  · exfalso
    have hact : e.is_active = true := by
      cases hb : e.is_active
      · exact absurd hb h1
      · rfl
    unfold gcSacrifices at hnotsac
    rw [hact] at hnotsac
    simp [h2] at hnotsac
  · have hlt := weakestGeneIdx_lt e.genome h3.1
    have hc2 := h3.2
    refine ⟨?_, ?_⟩
    · show 1 ≤ e.gene_count - 1
      omega
    · show e.gene_count - 1 =
        (e.genome.eraseIdx (weakestGeneIdx e.genome)).length
      rw [List.length_eraseIdx_of_lt hlt]
      omega
  · exact ⟨hone, hsync⟩

/-- C3: in any collection pass, an entity that the sacrifice branch does not
deactivate and that enters with at least one gene (its gene_count in sync
with its genome chain) still has at least one gene afterwards — the
weakest-gene eviction never reduces gene_count to 0, because eviction is
guarded by gene_count > 1. -/
theorem gc_weakest_gene_keeps_last (tick count : ℕ) (pool : List Entity)
    (i : ℕ) (e : Entity) (hget : pool[i]? = some e)
    (hsync : e.gene_count = e.genome.length) (hone : 1 ≤ e.gene_count)
    (hnotsac : gcSacrifices tick e = false) :
    ∃ e1, (gc_entity_pass tick count pool)[i]? = some e1 ∧
      1 ≤ e1.gene_count ∧ e1.gene_count = e1.genome.length := by
  unfold gc_entity_pass
  rw [gcPassFrom_get tick count pool 0 i, hget]
  simp only [Nat.zero_add]
  by_cases hi : i < count
  · exact ⟨gc_entity_step tick e, by simp [hi],
      (gc_entity_step_keeps_gene tick e hsync hone hnotsac).1,
      (gc_entity_step_keeps_gene tick e hsync hone hnotsac).2⟩
  · exact ⟨e, by simp [hi], hone, hsync⟩

/-- A two-gene genome used in concrete collector scenarios. -/
def geneA : Gene := { pattern := invalidHV, fitness := 7, geneMutable := true, name := "base" }

/-- A second, weaker gene for concrete collector scenarios. -/
def geneB : Gene := { pattern := invalidHV, fitness := 2, geneMutable := true, name := "social" }

/-- A baseline entity used for concrete scenarios (fields as spawned, with a
two-gene genome). -/
def sampleEntity : Entity :=
  { id := 1, state := invalidHV, genome := [geneA, geneB], gene_count := 2,
    age := 0, interaction_count := 0, is_active := true,
    specialization_scores := [], resource_allocation := 1,
    confidence := 1 / 2, domain_name := "adaptive", task_vector := invalidHV,
    path_id := 0, task_alignment := 0, fitness_score := 400, spawn_count := 0,
    marked_for_gc := false, is_mutant := false, mutation_rate := 50 }

/-- Witness for gc_weakest_gene_keeps_last: a healthy two-gene entity
(fitness 400 drives the sacrifice probability below zero, so its threshold
is 0 and it is never sacrificed) ends the pass with at least one gene. -/
theorem gc_weakest_gene_keeps_last_witness :
    ∃ e1, (gc_entity_pass 17 1 [sampleEntity])[0]? = some e1 ∧
      1 ≤ e1.gene_count ∧ e1.gene_count = e1.genome.length :=
  gc_weakest_gene_keeps_last 17 1 [sampleEntity] 0 sampleEntity rfl rfl
    (by decide)
    (by norm_num [gcSacrifices, gcRoll, wrap32, sacrificeThreshold,
      sacrificeProbability, sampleEntity])

/-- Clamp a rational to [0,1] (the clamping the specification describes). -/
def clamp01 (q : ℚ) : ℚ := max 0 (min 1 q)

/-- The deactivation criterion exactly as the claim states it (a
specification-side definition, for comparison with the code): real-valued
comparison of the draw against the clamped probability times 1000. -/
def claimSacrifices (tick : ℕ) (e : Entity) : Prop :=
  e.is_active = true ∧
    ((gcRoll tick e : ℚ) < clamp01 (sacrificeProbability e) * 1000)

/-- An entity on which the claimed rule and the code disagree: confidence
0.5, age 1, fitness 0 gives p = 0.15003, so p*1000 = 150.03; with id 1 and
tick 150 the draw is exactly 150. -/
def gcBoundaryEntity : Entity :=
  { id := 1, state := invalidHV, genome := [geneA], gene_count := 1,
    age := 1, interaction_count := 0, is_active := true,
    specialization_scores := [], resource_allocation := 1,
    confidence := 1 / 2, domain_name := "adaptive", task_vector := invalidHV,
    path_id := 0, task_alignment := 0, fitness_score := 0, spawn_count := 0,
    marked_for_gc := false, is_mutant := false, mutation_rate := 50 }

/-- C4 counterexample: at tick 150 the claim's rule (draw 150 below
p*1000 = 150.03) demands deactivation of gcBoundaryEntity, but the code
compares the draw against the uint32 truncation (uint32_t)(p*1000) = 150,
150 < 150 is false, and the entity stays active and untouched.  (The binary32
evaluation of p*1000 is about 150.030004, so its truncation is also 150: the
disagreement is robust to the rational idealization of float arithmetic.) -/
theorem gc_sacrifice_claim_counterexample :
    claimSacrifices 150 gcBoundaryEntity ∧
    (gc_entity_step 150 gcBoundaryEntity).is_active = true ∧
    gc_entity_step 150 gcBoundaryEntity = gcBoundaryEntity := by
  refine ⟨⟨rfl, ?_⟩, ?_, ?_⟩
  · norm_num [gcRoll, wrap32, clamp01, sacrificeProbability, gcBoundaryEntity]
  · have h : gc_entity_step 150 gcBoundaryEntity = gcBoundaryEntity := by
      unfold gc_entity_step
      have hthr : sacrificeThreshold gcBoundaryEntity = 150 := by
        norm_num [sacrificeThreshold, sacrificeProbability, gcBoundaryEntity]
        decide
      rw [hthr]
      norm_num [gcRoll, wrap32, gcBoundaryEntity, gcEvictWeakest]
    rw [h]
    rfl
  · unfold gc_entity_step
    have hthr : sacrificeThreshold gcBoundaryEntity = 150 := by
      norm_num [sacrificeThreshold, sacrificeProbability, gcBoundaryEntity]
      decide
    rw [hthr]
    norm_num [gcRoll, wrap32, gcBoundaryEntity, gcEvictWeakest]

/-- C4 (amended): for every active entity the collector deactivates — with
the full effect of destroying genome and state/task vectors, zeroing
gene_count and clearing is_active, while id, confidence and the other traits
are left as they were — exactly when the draw (global_tick * id mod 2^32 mod
1000) falls below the integer truncation of p*1000 (no clamping is applied;
a negative p*1000 gives threshold 0 here, where the C cast is undefined
behaviour; a p above 1 needs no clamp since every draw is below 1000). -/
theorem gc_sacrifice_rule (tick : ℕ) (e : Entity)
    (hact : e.is_active = true) :
    ((gc_entity_step tick e).is_active = false ↔
      gcRoll tick e < sacrificeThreshold e) ∧
    (gcRoll tick e < sacrificeThreshold e →
      (gc_entity_step tick e).genome = [] ∧
      (gc_entity_step tick e).gene_count = 0 ∧
      (gc_entity_step tick e).state.valid = false ∧
      (gc_entity_step tick e).task_vector.valid = false ∧
      (gc_entity_step tick e).id = e.id ∧
      (gc_entity_step tick e).confidence = e.confidence ∧
      (gc_entity_step tick e).age = e.age) := by
  unfold gc_entity_step
  rw [hact]
  rw [if_neg (by simp : ¬ (true = false))]
  by_cases hroll : gcRoll tick e < sacrificeThreshold e
  · rw [if_pos hroll]
    exact ⟨⟨fun _ => hroll, fun _ => rfl⟩,
      fun _ => ⟨rfl, rfl, rfl, rfl, rfl, rfl, rfl⟩⟩
  · rw [if_neg hroll]
    refine ⟨⟨fun hfalse => ?_, fun h => absurd h hroll⟩, fun h => absurd h hroll⟩
    exfalso
    have hia : e.is_active = false := by
      unfold gcEvictWeakest at hfalse
      by_cases hcond : e.genome ≠ [] ∧ 1 < e.gene_count
      · rw [if_pos hcond] at hfalse
        exact hfalse
      · rw [if_neg hcond] at hfalse
        exact hfalse
    rw [hact] at hia
    exact absurd hia (by simp)

/-- A zero-confidence entity: p = 0.05 + 0.2 = 0.25, threshold 250, so at
tick 100 (roll 100) the sacrifice branch fires. -/
def gcSacrificedEntity : Entity :=
  { id := 1, state := invalidHV, genome := [geneA], gene_count := 1,
    age := 0, interaction_count := 0, is_active := true,
    specialization_scores := [], resource_allocation := 1,
    confidence := 0, domain_name := "adaptive", task_vector := invalidHV,
    path_id := 0, task_alignment := 0, fitness_score := 0, spawn_count := 0,
    marked_for_gc := false, is_mutant := false, mutation_rate := 50 }

/-- Witness for gc_sacrifice_rule: a zero-confidence entity rolls 100 against
threshold 250 at tick 100 and is deactivated with an emptied genome. -/
theorem gc_sacrifice_rule_witness :
    (gc_entity_step 100 gcSacrificedEntity).is_active = false ∧
    (gc_entity_step 100 gcSacrificedEntity).gene_count = 0 := by
  have h := gc_sacrifice_rule 100 gcSacrificedEntity rfl
  have hroll : gcRoll 100 gcSacrificedEntity <
      sacrificeThreshold gcSacrificedEntity := by
    norm_num [gcRoll, wrap32, sacrificeThreshold, sacrificeProbability,
      gcSacrificedEntity]
  exact ⟨h.1.mpr hroll, (h.2 hroll).2.1⟩

/-- broadcast_thought (part_000 lines 2466-2483) acting on the thought buffer
(the visible prefix thought_space[0..thought_count) as a list) and the
allocator.  Invalid input is rejected.  On a full buffer the oldest entry
(index 0) is destroyed and all later entries shift down by one
(thought_count := MAX_THOUGHTS - 1); then a copy of the thought is appended
with its valid flag force-set to 1 — exactly as the code does, even when the
copy's backing allocation failed.  The global_coherence EWMA update (an
average of float cosine similarities) touches no field any claim refers to
and is not carried in this state.  none = the eviction's kfree would re-enter
the collector (outside the modelled fragment). -/
def broadcast_thought (t : HyperVector) (c : List HyperVector)
    (st : AllocState) : Option (List HyperVector × AllocState) :=
  if t.valid = false then some (c, st)
  else
    match
      (if MAX_THOUGHTS ≤ c.length then
        match destroy_hyper_vector (c.headD invalidHV) st with
        | none => none
        | some (_, st1) => some ((c.drop 1).take (MAX_THOUGHTS - 1), st1)
      else some (c, st)) with
    | none => none
    | some (c1, st1) =>
      let cp := copy_hyper_vector t st1
      some (c1 ++ [{ cp.1 with valid := true }], cp.2)

/-- A sequence of broadcasts threading buffer and allocator. -/
def broadcast_run : List HyperVector → List HyperVector × AllocState →
    Option (List HyperVector × AllocState)
  | [], s => some s
  | t :: rest, s =>
    match broadcast_thought t s.1 s.2 with
    | none => none
    | some s1 => broadcast_run rest s1

/-- A full thought buffer of 64 valid entries (empty payloads, fake buffer
pointers above the arena). -/
def fullThoughtBuffer : List HyperVector :=
  (List.range MAX_THOUGHTS).map (fun k => ⟨some (100000 + k), [], 1, 1, 0, true⟩)

/-- A valid one-float thought whose buffer pointer and hash are nonzero. -/
def smallThought : HyperVector := ⟨some 999999, [], 1, 1, 77, true⟩

/-- C6 counterexample: broadcasting a valid thought into a full buffer while
the metadata pool is exhausted (arena otherwise empty, so no collection
re-entry) evicts index 0 and shifts as claimed, but the appended entry is NOT
a deep copy of the thought: the copy's allocation fails, and the code stores
a vector with a NULL buffer and hash 0 whose valid flag is force-set to 1 —
while the broadcast thought has a live buffer and hash 77. -/
theorem broadcast_corrupt_append_counterexample :
    (broadcast_thought smallThought fullThoughtBuffer exhaustedPoolState).map
        (fun r => r.1.getLast?) =
      some (some ⟨none, [], 1, 1, 0, true⟩) ∧
    (broadcast_thought smallThought fullThoughtBuffer exhaustedPoolState).map
        (fun r => r.1.length) = some MAX_THOUGHTS ∧
    smallThought.dataPtr = some 999999 ∧ smallThought.hash_sig = 77 := by
  refine ⟨?_, ?_, rfl, rfl⟩ <;> decide

/-- Helper: when the stored copy of a valid thought carries a buffer pointer
(i.e. its allocation succeeded), its contents, active count, hash and
capacity equal the source's. -/
theorem copy_success_fields (t : HyperVector) (st : AllocState)
    (h : (copy_hyper_vector t st).1.dataPtr ≠ none) :
    (copy_hyper_vector t st).1.data = t.data ∧
    (copy_hyper_vector t st).1.active_dims = t.active_dims ∧
    (copy_hyper_vector t st).1.hash_sig = t.hash_sig ∧
    (copy_hyper_vector t st).1.capacity = t.capacity := by
  unfold copy_hyper_vector at h ⊢
  by_cases hg : t.valid = false ∨ t.dataPtr = none
  · simp only [if_pos hg] at h
    exact absurd rfl h
  · simp only [if_neg hg] at h ⊢
    cases hk : (kmalloc (t.capacity * 4) st).1 with
    | none => rw [hk] at h; exact absurd rfl h
    | some p => exact ⟨rfl, rfl, rfl, rfl⟩

/-- Thought number k of the 65-broadcast scenario (empty payload, distinct
fake buffer pointer and hash). -/
def seqThought (k : ℕ) : HyperVector := ⟨some (7000 + k), [], 1, 1, 900 + k, true⟩

/-- The MAX_THOUGHTS + 1 thoughts broadcast in the concrete FIFO scenario. -/
def seq65 : List HyperVector := (List.range (MAX_THOUGHTS + 1)).map seqThought

/-- The buffer expected after broadcasting seq65 into an empty collective:
the stored copies of thoughts 1..64 (the first broadcast evicted), each copy
holding the allocation offset 4k it received. -/
def expectedAfter65 : List HyperVector :=
  (List.range MAX_THOUGHTS).map
    (fun k => ⟨some (4 * (k + 1)), [], 1, 1, 900 + (k + 1), true⟩)

/-- C6 (amended): (i) a broadcast of a valid thought into a full buffer that
stays inside the modelled fragment evicts exactly index 0, shifts the rest
down, and appends one entry flagged valid — whose contents equal the
thought's whenever its backing allocation succeeded (on allocation failure
the appended entry is corrupt, see the counterexample); (ii) the buffer
length never exceeds MAX_THOUGHTS; (iii) broadcasting MAX_THOUGHTS + 1
thoughts into an empty collective evicts exactly the first broadcast: the
final buffer is the stored copies of thoughts 2..65 in order. -/
theorem broadcast_thought_fifo :
    (∀ t c st c1 st1, t.valid = true → c.length = MAX_THOUGHTS →
      broadcast_thought t c st = some (c1, st1) →
      ∃ e, c1 = c.drop 1 ++ [e] ∧ e.valid = true ∧
        (e.dataPtr ≠ none → e.data = t.data ∧ e.active_dims = t.active_dims ∧
          e.hash_sig = t.hash_sig ∧ e.capacity = t.capacity)) ∧
    (∀ t c st c1 st1, c.length ≤ MAX_THOUGHTS →
      broadcast_thought t c st = some (c1, st1) →
      c1.length ≤ MAX_THOUGHTS) ∧
    (broadcast_run seq65 ([], initAllocState)).map (fun r => r.1) =
      some expectedAfter65 := by
  refine ⟨?_, ?_, by decide⟩
  · intro t c st c1 st1 hv hlen hb
    unfold broadcast_thought at hb
    rw [if_neg (by rw [hv]; simp)] at hb
    rw [if_pos (le_of_eq hlen.symm)] at hb
    cases hd : destroy_hyper_vector (c.headD invalidHV) st with
    | none => rw [hd] at hb; simp at hb
    | some pr =>
      obtain ⟨v, st2⟩ := pr
      rw [hd] at hb
      simp only [Option.some.injEq, Prod.mk.injEq] at hb
      refine ⟨{ (copy_hyper_vector t st2).1 with valid := true }, ?_, rfl, ?_⟩
      · rw [← hb.1]
        have htake : (c.drop 1).take (MAX_THOUGHTS - 1) = c.drop 1 := by
          apply List.take_of_length_le
          simp [hlen]
        rw [htake]
      · intro hptr
        have hp : (copy_hyper_vector t st2).1.dataPtr ≠ none := hptr
        exact copy_success_fields t st2 hp
  · intro t c st c1 st1 hle hb
    unfold broadcast_thought at hb
    by_cases hv : t.valid = false
    · rw [if_pos hv] at hb
      simp only [Option.some.injEq, Prod.mk.injEq] at hb
      rw [← hb.1]; exact hle
    · rw [if_neg hv] at hb
      by_cases hfull : MAX_THOUGHTS ≤ c.length
      · rw [if_pos hfull] at hb
        cases hd : destroy_hyper_vector (c.headD invalidHV) st with
        | none => rw [hd] at hb; simp at hb
        | some pr =>
          obtain ⟨v, st2⟩ := pr
          rw [hd] at hb
          simp only [Option.some.injEq, Prod.mk.injEq] at hb
          rw [← hb.1]
          have := List.length_take_le (MAX_THOUGHTS - 1) (c.drop 1)
          simp only [List.length_append, List.length_singleton]
          unfold MAX_THOUGHTS at this ⊢
          omega
      · rw [if_neg hfull] at hb
        simp only [Option.some.injEq, Prod.mk.injEq] at hb
        rw [← hb.1]
        simp only [List.length_append, List.length_singleton]
        unfold MAX_THOUGHTS at hfull ⊢
        omega

/-- The buffer produced by broadcasting smallThought into the full buffer
from the freshly initialized allocator: index 0 evicted, shift, and a
successful deep copy (at arena offset 0) appended. -/
def afterFullBroadcast : List HyperVector :=
  fullThoughtBuffer.drop 1 ++ [⟨some 0, [], 1, 1, 77, true⟩]

/-- Witness for broadcast_thought_fifo: the same full-buffer broadcast, now
with a healthy allocator, stays in the modelled fragment, and the theorem
yields the evict-shift-append shape, a valid appended entry, and the length
cap. -/
theorem broadcast_thought_fifo_witness :
    ∃ e, afterFullBroadcast = fullThoughtBuffer.drop 1 ++ [e] ∧
      e.valid = true ∧ afterFullBroadcast.length ≤ MAX_THOUGHTS := by
  have hb : broadcast_thought smallThought fullThoughtBuffer initAllocState =
      some (afterFullBroadcast, (kmalloc 4 initAllocState).2) := by decide
  obtain ⟨e, he1, he2, _⟩ := broadcast_thought_fifo.1 smallThought
    fullThoughtBuffer initAllocState afterFullBroadcast
    (kmalloc 4 initAllocState).2 rfl (by decide) hb
  have hlen := broadcast_thought_fifo.2.1 smallThought fullThoughtBuffer
    initAllocState afterFullBroadcast (kmalloc 4 initAllocState).2
    (by decide) hb
  exact ⟨e, he1, he2, hlen⟩

/-- KernelPatch: the (old pattern, replacement, target address, applied)
record of the self-modification protocol. -/
structure KernelPatch where
  pattern : HyperVector
  replacement : HyperVector
  address : ℕ
  applied : Bool
  deriving Repr

/-- The raw bytes of the replacement buffer, as apply_kernel_patch reads
them through a uint8_t pointer. -/
def replacementBytes (p : KernelPatch) : List ℕ :=
  p.replacement.data.flatMap floatBytes

/-- apply_kernel_patch (part_000 lines 2826-2849, the bounds-checked
revision).  base is the address of the kernel_heap symbol; mem maps absolute
addresses to bytes.  Already-applied patches are a no-op; a payload of
active_dims*4 bytes above 1024 or a target address outside
[base, base + KERNEL_HEAP_SIZE) is rejected with no write; otherwise
min(active_dims, capacity)*4 raw bytes of the replacement buffer are copied
onto the target address and the patch is marked applied. -/
def apply_kernel_patch (base : ℕ) (p : KernelPatch) (mem : ℕ → ℕ) :
    KernelPatch × (ℕ → ℕ) :=
  if p.applied = true then (p, mem)
  else if 1024 < wrap32 (p.replacement.active_dims * 4) then (p, mem)
  else if p.address < base ∨ base + KERNEL_HEAP_SIZE ≤ p.address then (p, mem)
  else
    let n := min (wrap32 (p.replacement.active_dims * 4))
      (p.replacement.capacity * 4)
    ({ p with applied := true },
      fun a =>
        if p.address ≤ a ∧ a < p.address + n then
          (replacementBytes p).getD (a - p.address) 0
        else mem a)

/-- C7: apply_kernel_patch (i) is an exact no-op on an already-applied patch
(re-application writes nothing); (ii) rejects, with no write and without
marking applied, any patch whose replacement payload exceeds 1024 bytes;
(iii) likewise rejects a target address outside the managed arena
[base, base + KERNEL_HEAP_SIZE); (iv) otherwise marks the patch applied and
writes exactly the replacement's raw bytes onto the target address (capped at
the replacement buffer's capacity), leaving every other address untouched. -/
theorem apply_kernel_patch_safety (base : ℕ) (p : KernelPatch)
    (mem : ℕ → ℕ) :
    (p.applied = true → apply_kernel_patch base p mem = (p, mem)) ∧
    (p.applied = false → 1024 < wrap32 (p.replacement.active_dims * 4) →
      apply_kernel_patch base p mem = (p, mem)) ∧
    (p.applied = false →
      (p.address < base ∨ base + KERNEL_HEAP_SIZE ≤ p.address) →
      apply_kernel_patch base p mem = (p, mem)) ∧
    (p.applied = false → wrap32 (p.replacement.active_dims * 4) ≤ 1024 →
      base ≤ p.address → p.address < base + KERNEL_HEAP_SIZE →
      (apply_kernel_patch base p mem).1 = { p with applied := true } ∧
      ∀ a, (apply_kernel_patch base p mem).2 a =
        if p.address ≤ a ∧ a < p.address + min
            (wrap32 (p.replacement.active_dims * 4))
            (p.replacement.capacity * 4) then
          (replacementBytes p).getD (a - p.address) 0
        else mem a) := by
  refine ⟨?_, ?_, ?_, ?_⟩
  · intro h
    unfold apply_kernel_patch
    rw [if_pos h]
  · intro h ht
    unfold apply_kernel_patch
    rw [if_neg (by rw [h]; simp), if_pos ht]
  · intro h ha
    unfold apply_kernel_patch
    rw [if_neg (by rw [h]; simp)]
    by_cases ht : 1024 < wrap32 (p.replacement.active_dims * 4)
    · rw [if_pos ht]
    · rw [if_neg ht, if_pos ha]
  · intro h ht hge hlt
    unfold apply_kernel_patch
    rw [if_neg (by rw [h]; simp), if_neg (by omega),
      if_neg (by push_neg; exact ⟨hge, hlt⟩)]
    exact ⟨rfl, fun a => rfl⟩

/-- A fresh one-float patch aimed inside the arena. -/
def samplePatch : KernelPatch :=
  { pattern := invalidHV, replacement := ⟨some 0, [1], 1, 1, 5, true⟩,
    address := 16, applied := false }

/-- Witness for apply_kernel_patch_safety: applying samplePatch at base 0
marks it applied and leaves address 100 (outside the 4-byte write window at
16..19) untouched; re-applying the marked patch is an exact no-op. -/
theorem apply_kernel_patch_safety_witness :
    (apply_kernel_patch 0 samplePatch (fun _ => 0)).1 =
      { samplePatch with applied := true } ∧
    (apply_kernel_patch 0 samplePatch (fun _ => 0)).2 100 = 0 ∧
    (apply_kernel_patch 0 { samplePatch with applied := true } (fun _ => 0)) =
      ({ samplePatch with applied := true }, fun _ => 0) := by
  have h4 := (apply_kernel_patch_safety 0 samplePatch (fun _ => 0)).2.2.2
    rfl (by decide) (by decide) (by decide)
  have h100 := h4.2 100
  rw [if_neg (by decide)] at h100
  have h1 := (apply_kernel_patch_safety 0
    { samplePatch with applied := true } (fun _ => 0)).1 rfl
  exact ⟨h4.1, h100, h1⟩

/-- MAX_ENTITY_DOMAINS. -/
def MAX_ENTITY_DOMAINS : ℕ := 8

/-- One holographic-memory entry (input pattern, output pattern, timestamp,
validity). -/
structure MemoryEntry where
  input_pattern : HyperVector
  output_pattern : HyperVector
  timestamp : ℕ
  valid : Bool
  deriving DecidableEq, Repr

/-- The zero-initialized memory entry ({0} slots of the pool). -/
def zeroMemoryEntry : MemoryEntry :=
  { input_pattern := invalidHV, output_pattern := invalidHV,
    timestamp := 0, valid := false }

/-- A zero-initialized entity pool slot ({0} in the C globals). -/
def zeroEntity : Entity :=
  { id := 0, state := invalidHV, genome := [], gene_count := 0, age := 0,
    interaction_count := 0, is_active := false, specialization_scores := [],
    resource_allocation := 0, confidence := 0, domain_name := "",
    task_vector := invalidHV, path_id := 0, task_alignment := 0,
    fitness_score := 0, spawn_count := 0, marked_for_gc := false,
    is_mutant := false, mutation_rate := 0 }

/-- encode_holographic_memory (part_000 lines 2506-2521) on the visible
entry list, the global timestamp and the allocator: evict (destroy + shift)
the oldest entry when full, then append deep copies of both patterns tagged
with the current timestamp, which the call increments.  none = an eviction
kfree would re-enter the collector. -/
def encode_holographic_memory (inp outp : HyperVector)
    (mem : List MemoryEntry) (tick : ℕ) (st : AllocState) :
    Option (List MemoryEntry × ℕ × AllocState) :=
  match
    (if MAX_MEMORY_ENTRIES ≤ mem.length then
      match destroy_hyper_vector (mem.headD zeroMemoryEntry).input_pattern st with
      | none => none
      | some (_, st1) =>
        match destroy_hyper_vector (mem.headD zeroMemoryEntry).output_pattern st1 with
        | none => none
        | some (_, st2) =>
          some ((mem.drop 1).take (MAX_MEMORY_ENTRIES - 1), st2)
    else some (mem, st)) with
  | none => none
  | some (m1, st1) =>
    let ci := copy_hyper_vector inp st1
    let co := copy_hyper_vector outp ci.2
    let entry : MemoryEntry :=
      { input_pattern := ci.1, output_pattern := co.1,
        timestamp := tick, valid := true }
    some (m1 ++ [entry], tick + 1, co.2)

/-- propose_kernel_patch (part_000 lines 2850-2864): copy the old and new
patterns into a local patch, record the pair in the associative memory, and
broadcast the replacement to the collective.  No memory is written; the
target address flows only into the log line and the discarded local patch,
so it does not appear in the state. -/
def propose_kernel_patch (oldp newp : HyperVector) (c : List HyperVector)
    (mem : List MemoryEntry) (tick : ℕ) (st : AllocState) :
    Option (List HyperVector × List MemoryEntry × ℕ × AllocState) :=
  match encode_holographic_memory (copy_hyper_vector oldp st).1
      (copy_hyper_vector newp (copy_hyper_vector oldp st).2).1 mem tick
      (copy_hyper_vector newp (copy_hyper_vector oldp st).2).2 with
  | none => none
  | some (m1, tick1, st1) =>
    match broadcast_thought
        (copy_hyper_vector newp (copy_hyper_vector oldp st).2).1 c st1 with
    | none => none
    | some (c1, st2) => some (c1, m1, tick1, st2)

/-- sizeof(struct Gene) on i386: HyperVector (4+4+4+4+1, padded to 20) +
next pointer 4 + uint32 fitness 4 + mutable 1 + name[16], padded to 48. -/
def SIZEOF_GENE : ℕ := 48

/-- create_gene (part_000 lines 2392-2405): allocate the gene node, then
deep-copy the pattern (the copy may itself fail, leaving an invalid
pattern inside a non-NULL gene); fitness 0, mutable, name truncated to 15
characters. -/
def create_gene (name : String) (pattern : HyperVector) (st : AllocState) :
    Option Gene × AllocState :=
  let res := kmalloc SIZEOF_GENE st
  match res.1 with
  | none => (none, res.2)
  | some _ =>
    let cp := copy_hyper_vector pattern res.2
    let g : Gene :=
      { pattern := cp.1, fitness := 0, geneMutable := true,
        name := name.take 15 }
    (some g, cp.2)

/-- The global simulation state the entity subsystem touches. -/
structure KernelState where
  alloc : AllocState
  entity_pool : List Entity
  active_entity_count : ℕ
  collective : List HyperVector
  memory_pool : List MemoryEntry
  global_timestamp : ℕ

/-- The three ways spawn_entity can leave: the NULL return on a full pool,
the while(1) hang when an allocation fails, or the returned slot index. -/
inductive SpawnResult where
  | poolFull : SpawnResult
  | halted : SpawnResult
  | spawned : ℕ → SpawnResult
  deriving DecidableEq, Repr

/-- spawn_entity (part_000 lines 2583-2624): NULL on a full pool; otherwise
populate slot active_entity_count with id = that index, age 0, one fresh
emergent gene, mutation_rate 100, and bump the count.  If the TRAIT_EMERGENT
state vector or the gene allocation fails the code hangs in while(1), which
the model reports as halted (the partially assigned slot is never observable
because the function never returns).  task_vector and path_id are not
assigned and keep the slot's old contents. -/
def spawnNewEntity (ks : KernelState) (g : Gene) (state : HyperVector) :
    Entity :=
  { id := ks.active_entity_count, age := 0, interaction_count := 0,
    is_active := true, fitness_score := 0, spawn_count := 0,
    marked_for_gc := false, is_mutant := true, gene_count := 1, genome := [g],
    mutation_rate := 100, state := state,
    specialization_scores := List.replicate MAX_ENTITY_DOMAINS (1 / 10),
    resource_allocation := 1, confidence := 1 / 2, task_alignment := 0,
    domain_name := "spawned",
    task_vector := (ks.entity_pool.getD ks.active_entity_count
      zeroEntity).task_vector,
    path_id := (ks.entity_pool.getD ks.active_entity_count zeroEntity).path_id }

def spawn_entity (ks : KernelState) : SpawnResult × KernelState :=
  if MAX_ENTITIES ≤ ks.active_entity_count then (SpawnResult.poolFull, ks)
  else
    if (create_hyper_vector (cstrBytes "TRAIT_EMERGENT") ks.alloc).1.valid
        = false then
      (SpawnResult.halted,
        { ks with alloc :=
            (create_hyper_vector (cstrBytes "TRAIT_EMERGENT") ks.alloc).2 })
    else
      match (create_gene "emergent"
          (create_hyper_vector (cstrBytes "TRAIT_EMERGENT") ks.alloc).1
          (create_hyper_vector (cstrBytes "TRAIT_EMERGENT") ks.alloc).2).1 with
      | none =>
        (SpawnResult.halted,
          { ks with alloc := (create_gene "emergent"
              (create_hyper_vector (cstrBytes "TRAIT_EMERGENT") ks.alloc).1
              (create_hyper_vector (cstrBytes "TRAIT_EMERGENT") ks.alloc).2).2 })
      | some g =>
        (SpawnResult.spawned ks.active_entity_count,
          { ks with
            alloc := (create_gene "emergent"
              (create_hyper_vector (cstrBytes "TRAIT_EMERGENT") ks.alloc).1
              (create_hyper_vector (cstrBytes "TRAIT_EMERGENT") ks.alloc).2).2,
            entity_pool := ks.entity_pool.set ks.active_entity_count
              (spawnNewEntity ks g
                (create_hyper_vector (cstrBytes "TRAIT_EMERGENT") ks.alloc).1),
            active_entity_count := ks.active_entity_count + 1 })

/-- merge_hyper_vectors (part_000 lines 2382-2389): element-wise average
over the overlapping active prefix, in place into dest, then hash
recomputation over the leading active_dims floats; a no-op when either side
is invalid. -/
def merge_hyper_vectors (dest src : HyperVector) : HyperVector :=
  if dest.valid = false ∨ src.valid = false then dest
  else
    let m := min dest.active_dims src.active_dims
    let newData := (List.range dest.data.length).map (fun i =>
      if i < m then (dest.data.getD i 0 + src.data.getD i 0) / 2
      else dest.data.getD i 0)
    { dest with
      data := newData,
      hash_sig := hash_data ((newData.take dest.active_dims).flatMap floatBytes) }

/-- The cosine-similarity function compute_similarity, whose bit-trick
sqrtf has no exact rational counterpart; it enters the update cycle as an
explicit parameter. -/
def SimFn : Type := HyperVector → HyperVector → ℚ

/-- One iteration of the resonance loop (part_000 lines 2691-2702): a
thought whose similarity exceeds 0.6 raises confidence by 0.05*similarity,
resource allocation by 0.1, fitness by 2, and merges the entity state
halfway toward the thought. -/
def resonateStep (simFn : SimFn) (e : Entity) (t : HyperVector) : Entity :=
  let sim := simFn e.state t
  if 3 / 5 < sim then
    { e with confidence := e.confidence + sim * (1 / 20),
             resource_allocation := e.resource_allocation + 1 / 10,
             fitness_score := e.fitness_score + 2,
             state := merge_hyper_vectors e.state t }
  else e

/-- The resonance loop over the whole thought buffer, in order. -/
def resonate (simFn : SimFn) (e : Entity) (ts : List HyperVector) : Entity :=
  ts.foldl (resonateStep simFn) e

/-- Ring-topology neighbor count (part_000 lines 2705-2709): previous and
next pool positions modulo the current active count, counting is_active
flags. -/
def neighborActive (pool : List Entity) (count i : ℕ) : ℕ :=
  let prev_idx := if i = 0 then count - 1 else i - 1
  let next_idx := if i = count - 1 then 0 else i + 1
  (if (pool.getD prev_idx zeroEntity).is_active then 1 else 0) +
    (if (pool.getD next_idx zeroEntity).is_active then 1 else 0)

/-- can_afford_vector_copy(2) (part_000 lines 2243-2247): needed =
2*MAX_DIMENSIONS*4 = 16384 bytes, affordable when needed < free*0.8,
i.e. 81920 < 4*free. -/
def can_afford_vector_copy2 (st : AllocState) : Bool :=
  81920 < 4 * (KERNEL_HEAP_SIZE - st.heap_offset)

/-- The self-modification trigger condition (part_000 line 2746):
confidence > 0.8, fitness_score > 50, mutation_rate > 100. -/
def selfModTriggered (e : Entity) : Bool :=
  decide ((4 : ℚ) / 5 < e.confidence) && decide (50 < e.fitness_score) &&
    decide (100 < e.mutation_rate)

/-- The self-modification block of update_entities (part_000 lines
2746-2758): when the trigger fires, create the ENTITY_ACTIVE_FLAG /
ENTITY_DORMANT_FLAG patterns; if both are valid, propose a patch at the
address of the entity's own is_active flag (an address that flows into no
modelled state) and reset confidence to 0.5 and fitness to 0; if either
creation failed nothing further happens (the allocator still advanced). -/
def self_mod_phase (e : Entity) (c : List HyperVector)
    (mem : List MemoryEntry) (tick : ℕ) (st : AllocState) :
    Option (Entity × List HyperVector × List MemoryEntry × ℕ × AllocState) :=
  if selfModTriggered e = false then some (e, c, mem, tick, st)
  else
    if (create_hyper_vector (cstrBytes "ENTITY_ACTIVE_FLAG") st).1.valid = true ∧
        (create_hyper_vector (cstrBytes "ENTITY_DORMANT_FLAG")
          (create_hyper_vector (cstrBytes "ENTITY_ACTIVE_FLAG") st).2).1.valid
          = true then
      match propose_kernel_patch
          (create_hyper_vector (cstrBytes "ENTITY_ACTIVE_FLAG") st).1
          (create_hyper_vector (cstrBytes "ENTITY_DORMANT_FLAG")
            (create_hyper_vector (cstrBytes "ENTITY_ACTIVE_FLAG") st).2).1
          c mem tick
          (create_hyper_vector (cstrBytes "ENTITY_DORMANT_FLAG")
            (create_hyper_vector (cstrBytes "ENTITY_ACTIVE_FLAG") st).2).2 with
      | none => none
      | some (c1, m1, t1, st1) =>
        some ({ e with confidence := 1 / 2, fitness_score := 0 }, c1, m1, t1, st1)
    else
      some (e, c, mem, tick,
        (create_hyper_vector (cstrBytes "ENTITY_DORMANT_FLAG")
          (create_hyper_vector (cstrBytes "ENTITY_ACTIVE_FLAG") st).2).2)

/-- The per-slot phase-2 buffers (next_active, next_state, next_domain,
next_task_vector, next_path_id, next_task_alignment). -/
structure NextSlot where
  active : Bool
  state : HyperVector
  domain : String
  task : HyperVector
  path_id : ℕ
  align : ℚ

/-- The state threaded through the update cycle: the pool, the (fixed)
active count, the collective buffer, the associative memory with its
timestamp, the allocator, and the next-slot buffers built so far. -/
structure UpdCtx where
  pool : List Entity
  count : ℕ
  collective : List HyperVector
  mem : List MemoryEntry
  tick : ℕ
  alloc : AllocState
  nxt : List NextSlot

/-- Write back one processed entity and its next-slot record. -/
def updWriteBack (ctx : UpdCtx) (i : ℕ) (e : Entity) (n : NextSlot)
    (c : List HyperVector) (mem : List MemoryEntry) (tick : ℕ)
    (st : AllocState) : UpdCtx :=
  { ctx with pool := ctx.pool.set i e, collective := c, mem := mem,
             tick := tick, alloc := st, nxt := ctx.nxt ++ [n] }

/-- Phase 1 of update_entities for one entity (part_000 lines 2644-2759):
pressure-based voluntary skip, affordability-based forced skip, deep copy
with shallow fallback, age increment, resonance, neighbor-based
activation/sleep (with early continue when the fresh state vector cannot be
created), and the self-modification block.  none = some inner broadcast,
encode or destroy stepped outside the modelled fragment. -/
def update_entity_step (simFn : SimFn) (ctx : UpdCtx) (i : ℕ) : Option UpdCtx :=
  match ctx.pool[i]? with
  | none => some { ctx with nxt := ctx.nxt ++
      [{ active := false, state := invalidHV, domain := "", task := invalidHV,
         path_id := 0, align := 0 }] }
  | some e =>
    let nxt0 : NextSlot :=
      { active := e.is_active, state := invalidHV, domain := e.domain_name,
        task := invalidHV, path_id := e.path_id, align := e.task_alignment }
    if pressureAbove08 ctx.alloc = true ∧ e.fitness_score < 30 then
      some (updWriteBack ctx i { e with age := e.age + 1 }
        { nxt0 with state := e.state, task := e.task_vector }
        ctx.collective ctx.mem ctx.tick ctx.alloc)
    else if can_afford_vector_copy2 ctx.alloc = false then
      some (updWriteBack ctx i { e with age := e.age + 1 }
        { nxt0 with state := e.state, task := e.task_vector }
        ctx.collective ctx.mem ctx.tick ctx.alloc)
    else
      let cs := copy_hyper_vector e.state ctx.alloc
      let ct := copy_hyper_vector e.task_vector cs.2
      let nst := if cs.1.valid = true ∧ ct.1.valid = true then cs.1 else e.state
      let ntk := if cs.1.valid = true ∧ ct.1.valid = true then ct.1
        else e.task_vector
      let e2 := resonate simFn { e with age := e.age + 1 } ctx.collective
      let nbr := neighborActive ctx.pool ctx.count i
      if e2.is_active = false ∧ 0 < nbr then
        let hv := create_hyper_vector (cstrBytes "TRAIT_ACTIVE") ct.2
        if hv.1.valid = false then
          some (updWriteBack ctx i e2
            { nxt0 with active := true, state := hv.1, task := ntk }
            ctx.collective ctx.mem ctx.tick hv.2)
        else
          let e3 := { e2 with interaction_count := e2.interaction_count + 1,
                              fitness_score := e2.fitness_score + 5 }
          match broadcast_thought hv.1 ctx.collective hv.2 with
          | none => none
          | some (c1, st1) =>
            match self_mod_phase e3 c1 ctx.mem ctx.tick st1 with
            | none => none
            | some (e4, c2, m2, t2, st2) =>
              some (updWriteBack ctx i e4
                { nxt0 with active := true, state := hv.1, domain := "reactor",
                            task := ntk }
                c2 m2 t2 st2)
      else if e2.is_active = true ∧ nbr = 0 then
        let hv := create_hyper_vector (cstrBytes "TRAIT_DORMANT") ct.2
        if hv.1.valid = false then
          some (updWriteBack ctx i e2
            { nxt0 with active := false, state := hv.1, task := ntk }
            ctx.collective ctx.mem ctx.tick hv.2)
        else
          let e3 := { e2 with interaction_count := e2.interaction_count + 1 }
          match self_mod_phase e3 ctx.collective ctx.mem ctx.tick hv.2 with
          | none => none
          | some (e4, c2, m2, t2, st2) =>
            some (updWriteBack ctx i e4
              { nxt0 with active := false, state := hv.1, domain := "sleeper",
                          task := ntk }
              c2 m2 t2 st2)
      else
        match self_mod_phase e2 ctx.collective ctx.mem ctx.tick ct.2 with
        | none => none
        | some (e4, c2, m2, t2, st2) =>
          some (updWriteBack ctx i e4
            { nxt0 with state := nst, task := ntk } c2 m2 t2 st2)

/-- Phase 2 for one slot (part_000 lines 2762-2777): commit next_active,
destroy the old state/task vector when the committed one is a different
live buffer, and commit state, domain, task, path and alignment. -/
def commitSlot (e : Entity) (n : NextSlot) (st : AllocState) :
    Option (Entity × AllocState) :=
  match (if n.state.valid = true ∧ n.state.dataPtr ≠ e.state.dataPtr then
      destroy_hyper_vector e.state st else some (e.state, st)) with
  | none => none
  | some (_, st1) =>
    match (if n.task.valid = true ∧ n.task.dataPtr ≠ e.task_vector.dataPtr then
        destroy_hyper_vector e.task_vector st1 else some (e.task_vector, st1)) with
    | none => none
    | some (_, st2) =>
      let e1 : Entity :=
        { e with
          is_active := n.active, state := n.state,
          domain_name := n.domain, task_vector := n.task,
          path_id := n.path_id, task_alignment := n.align }
      some (e1, st2)

/-- Fold step of the phase-2 commit loop. -/
def update_commit_step (nxts : List NextSlot)
    (acc : Option (List Entity × AllocState)) (i : ℕ) :
    Option (List Entity × AllocState) :=
  match acc with
  | none => none
  | some (pool, st) =>
    match pool[i]?, nxts[i]? with
    | some e, some n =>
      match commitSlot e n st with
      | none => none
      | some (e1, st1) => some (pool.set i e1, st1)
    | _, _ => some (pool, st)

/-- The phase-1 loop over the first count indices. -/
def phase1Fold (simFn : SimFn) (count : ℕ) (ctx0 : UpdCtx) : Option UpdCtx :=
  (List.range count).foldl
    (fun acc i => match acc with
      | none => none
      | some c => update_entity_step simFn c i) (some ctx0)

/-- The phase-2 commit loop over the first count indices. -/
def phase2Fold (nxts : List NextSlot) (count : ℕ)
    (pool0 : List Entity) (st0 : AllocState) :
    Option (List Entity × AllocState) :=
  (List.range count).foldl (update_commit_step nxts) (some (pool0, st0))

/-- update_entities (part_000 lines 2627-2778): phase 1 over the first
active_entity_count slots, then the atomic phase-2 commit.
active_entity_count is never written. -/
def update_entities (simFn : SimFn) (ks : KernelState) : Option KernelState :=
  match phase1Fold simFn ks.active_entity_count
      { pool := ks.entity_pool, count := ks.active_entity_count,
        collective := ks.collective, mem := ks.memory_pool,
        tick := ks.global_timestamp, alloc := ks.alloc, nxt := [] } with
  | none => none
  | some ctx1 =>
    match phase2Fold ctx1.nxt ks.active_entity_count ctx1.pool ctx1.alloc with
    | none => none
    | some (pool2, st2) =>
      some { alloc := st2, entity_pool := pool2,
             active_entity_count := ks.active_entity_count,
             collective := ctx1.collective, memory_pool := ctx1.mem,
             global_timestamp := ctx1.tick }

/-- A non-full kernel state whose metadata pool is exhausted, so the spawn's
state-vector allocation must fail. -/
def ksNoMem : KernelState :=
  { alloc := exhaustedPoolState,
    entity_pool := List.replicate MAX_ENTITIES zeroEntity,
    active_entity_count := 0, collective := [], memory_pool := [],
    global_timestamp := 0 }

/-- C9 counterexample: with the pool NOT full but the allocator unable to
serve the TRAIT_EMERGENT state vector, spawn_entity does not return a pool
slot at all — the C code hangs in while(1) (modelled as the halted outcome),
so the claimed unconditional slot return fails. -/
theorem spawn_halt_counterexample :
    (spawn_entity ksNoMem).1 = SpawnResult.halted ∧
    ksNoMem.active_entity_count < MAX_ENTITIES :=
  ⟨rfl, by decide⟩

/-- C9 (amended): a spawn on a full pool returns the NULL sentinel and
changes nothing; a spawn on a non-full pool whose state-vector and gene
allocations succeed fills exactly the slot at the old active_entity_count,
assigns it that index as id (with a single fresh gene), and increments the
count by one; when an allocation fails the code halts instead of
returning. -/
theorem spawn_entity_behavior (ks : KernelState) :
    (MAX_ENTITIES ≤ ks.active_entity_count →
      spawn_entity ks = (SpawnResult.poolFull, ks)) ∧
    (ks.active_entity_count < MAX_ENTITIES →
      (create_hyper_vector (cstrBytes "TRAIT_EMERGENT") ks.alloc).1.valid = true →
      (create_gene "emergent"
          (create_hyper_vector (cstrBytes "TRAIT_EMERGENT") ks.alloc).1
          (create_hyper_vector (cstrBytes "TRAIT_EMERGENT") ks.alloc).2).1.isSome
        = true →
      ∃ e1, (spawn_entity ks).1 = SpawnResult.spawned ks.active_entity_count ∧
        (spawn_entity ks).2.entity_pool =
          ks.entity_pool.set ks.active_entity_count e1 ∧
        e1.id = ks.active_entity_count ∧ e1.gene_count = 1 ∧
        e1.age = 0 ∧ e1.mutation_rate = 100 ∧
        (spawn_entity ks).2.active_entity_count = ks.active_entity_count + 1) := by
  constructor
  · intro h
    unfold spawn_entity
    rw [if_pos h]
  · intro h hv hg
    unfold spawn_entity
    rw [if_neg (not_le.mpr h), if_neg (by rw [hv]; simp)]
    cases hcg : (create_gene "emergent"
        (create_hyper_vector (cstrBytes "TRAIT_EMERGENT") ks.alloc).1
        (create_hyper_vector (cstrBytes "TRAIT_EMERGENT") ks.alloc).2).1 with
    | none => rw [hcg] at hg; simp at hg
    | some g =>
      exact ⟨spawnNewEntity ks g
        (create_hyper_vector (cstrBytes "TRAIT_EMERGENT") ks.alloc).1,
        rfl, rfl, rfl, rfl, rfl, rfl, rfl⟩

/-- A freshly booted kernel state: initialized allocator, 32 zeroed pool
slots, nothing active. -/
def ksFresh : KernelState :=
  { alloc := initAllocState,
    entity_pool := List.replicate MAX_ENTITIES zeroEntity,
    active_entity_count := 0, collective := [], memory_pool := [],
    global_timestamp := 0 }

/-- Witness for spawn_entity_behavior: the first spawn on a fresh system
lands in slot 0 with id 0, one gene, and bumps the count to 1. -/
theorem spawn_entity_behavior_witness :
    ∃ e1, (spawn_entity ksFresh).1 = SpawnResult.spawned 0 ∧
      (spawn_entity ksFresh).2.entity_pool = ksFresh.entity_pool.set 0 e1 ∧
      e1.id = 0 ∧ e1.gene_count = 1 ∧ e1.age = 0 ∧ e1.mutation_rate = 100 ∧
      (spawn_entity ksFresh).2.active_entity_count = 1 :=
  (spawn_entity_behavior ksFresh).2 (by decide) rfl rfl

/-- Helper: a successful encode increments the timestamp and ends the entry
list with a new valid entry stamped with the pre-call tick; without eviction
the list grows by exactly one. -/
theorem encode_appends (inp outp : HyperVector) (mem : List MemoryEntry)
    (tick : ℕ) (st : AllocState) (m1 : List MemoryEntry) (t1 : ℕ)
    (st1 : AllocState)
    (h : encode_holographic_memory inp outp mem tick st = some (m1, t1, st1)) :
    t1 = tick + 1 ∧
    (∃ entry, m1.getLast? = some entry ∧ entry.timestamp = tick ∧
      entry.valid = true) ∧
    (mem.length < MAX_MEMORY_ENTRIES → m1.length = mem.length + 1) := by
  unfold encode_holographic_memory at h
  by_cases hfull : MAX_MEMORY_ENTRIES ≤ mem.length
  · rw [if_pos hfull] at h
    cases hd1 : destroy_hyper_vector (mem.headD zeroMemoryEntry).input_pattern st with
    | none => rw [hd1] at h; simp at h
    | some pr1 =>
      obtain ⟨v1, sta⟩ := pr1
      rw [hd1] at h
      dsimp only at h
      cases hd2 : destroy_hyper_vector (mem.headD zeroMemoryEntry).output_pattern sta with
      | none => rw [hd2] at h; simp at h
      | some pr2 =>
        obtain ⟨v2, stb⟩ := pr2
        rw [hd2] at h
        simp only [Option.some.injEq, Prod.mk.injEq] at h
        have hlast : m1.getLast? = some
            { input_pattern := (copy_hyper_vector inp stb).1,
              output_pattern :=
                (copy_hyper_vector outp (copy_hyper_vector inp stb).2).1,
              timestamp := tick, valid := true } := by
          rw [← h.1]
          exact List.getLast?_concat _
        exact ⟨h.2.1.symm, ⟨_, hlast, rfl, rfl⟩,
          fun hlt => absurd hfull (not_le.mpr hlt)⟩
  · rw [if_neg hfull] at h
    simp only [Option.some.injEq, Prod.mk.injEq] at h
    have hlast : m1.getLast? = some
        { input_pattern := (copy_hyper_vector inp st).1,
          output_pattern :=
            (copy_hyper_vector outp (copy_hyper_vector inp st).2).1,
          timestamp := tick, valid := true } := by
      rw [← h.1]
      exact List.getLast?_concat _
    refine ⟨h.2.1.symm, ⟨_, hlast, rfl, rfl⟩, fun _ => ?_⟩
    rw [← h.1]
    simp

/-- Helper: broadcasting a valid thought into a non-full buffer grows it by
exactly one entry. -/
theorem broadcast_appends (t : HyperVector) (c : List HyperVector)
    (st : AllocState) (c1 : List HyperVector) (st1 : AllocState)
    (hv : t.valid = true) (hlen : c.length < MAX_THOUGHTS)
    (hb : broadcast_thought t c st = some (c1, st1)) :
    c1.length = c.length + 1 := by
  unfold broadcast_thought at hb
  rw [if_neg (by rw [hv]; simp), if_neg (not_le.mpr hlen)] at hb
  simp only [Option.some.injEq, Prod.mk.injEq] at hb
  rw [← hb.1]
  simp

/-- Helper: what a successful broadcast does to the buffer, as a function of
the thought's valid flag: an invalid thought is rejected outright and the
buffer is unchanged; a valid thought ends the buffer with an entry whose
valid flag is force-set, growing a non-full buffer by exactly one. -/
theorem broadcast_effect (t : HyperVector) (c : List HyperVector)
    (st : AllocState) (c1 : List HyperVector) (st1 : AllocState)
    (hb : broadcast_thought t c st = some (c1, st1)) :
    (t.valid = false → c1 = c) ∧
    (t.valid = true →
      (c.length < MAX_THOUGHTS → c1.length = c.length + 1) ∧
      ∃ bc, c1.getLast? = some bc ∧ bc.valid = true) := by
  unfold broadcast_thought at hb
  by_cases hv : t.valid = false
  · rw [if_pos hv] at hb
    simp only [Option.some.injEq, Prod.mk.injEq] at hb
    refine ⟨fun _ => hb.1.symm, fun ht => ?_⟩
    rw [hv] at ht
    exact absurd ht (by simp)
  · rw [if_neg hv] at hb
    refine ⟨fun hf => absurd hf hv, fun _ => ?_⟩
    split at hb
    · exact absurd hb (by simp)
    · rename_i c2 st2 heq
      simp only [Option.some.injEq, Prod.mk.injEq] at hb
      constructor
      · intro hlen
        rw [if_neg (not_le.mpr hlen)] at heq
        simp only [Option.some.injEq, Prod.mk.injEq] at heq
        rw [← hb.1, ← heq.1]
        simp
      · have hlast : c1.getLast? = some
            { (copy_hyper_vector t st2).1 with valid := true } := by
          rw [← hb.1]
          exact List.getLast?_concat _
        exact ⟨_, hlast, rfl⟩

/-- Helper: a successful propose records one new valid entry stamped with
the pre-call tick into the associative memory and increments the timestamp;
the copy of the replacement pattern it hands to broadcast_thought is
appended to the collective (valid flag force-set, one net new entry on a
non-full buffer) when that copy is valid, and rejected — collective
unchanged — when the copy's allocation failed. -/
theorem propose_effect (oldp newp : HyperVector) (c : List HyperVector)
    (mem : List MemoryEntry) (tick : ℕ) (st : AllocState)
    (c1 : List HyperVector) (m1 : List MemoryEntry) (t1 : ℕ)
    (st1 : AllocState)
    (hp : propose_kernel_patch oldp newp c mem tick st =
      some (c1, m1, t1, st1)) :
    t1 = tick + 1 ∧
    (∃ entry, m1.getLast? = some entry ∧ entry.timestamp = tick ∧
      entry.valid = true) ∧
    (mem.length < MAX_MEMORY_ENTRIES → m1.length = mem.length + 1) ∧
    ((copy_hyper_vector newp (copy_hyper_vector oldp st).2).1.valid = false →
      c1 = c) ∧
    ((copy_hyper_vector newp (copy_hyper_vector oldp st).2).1.valid = true →
      (c.length < MAX_THOUGHTS → c1.length = c.length + 1) ∧
      ∃ bc, c1.getLast? = some bc ∧ bc.valid = true) := by
  unfold propose_kernel_patch at hp
  split at hp
  · exact absurd hp (by simp)
  · rename_i m3 t3 st3 hen
    split at hp
    · exact absurd hp (by simp)
    · rename_i c3 st4 hbr
      simp only [Option.some.injEq, Prod.mk.injEq] at hp
      obtain ⟨hc3, hm3, ht3, hst4⟩ := hp
      have hfacts := encode_appends _ _ mem tick _ m3 t3 st3 hen
      have hbe := broadcast_effect _ _ _ _ _ hbr
      exact ⟨by rw [← ht3]; exact hfacts.1,
        by rw [← hm3]; exact hfacts.2.1,
        by rw [← hm3]; exact hfacts.2.2,
        by rw [← hc3]; exact hbe.1,
        by rw [← hc3]; exact hbe.2⟩

/-- The copy of the replacement pattern that the self-modification block's
propose_kernel_patch makes and hands to broadcast_thought: propose first
copies the ENTITY_ACTIVE_FLAG pattern, then the ENTITY_DORMANT_FLAG
pattern, starting from the allocator state the two pattern creations left
behind. -/
def selfModReplacementCopy (st : AllocState) : HyperVector :=
  (copy_hyper_vector
    (create_hyper_vector (cstrBytes "ENTITY_DORMANT_FLAG")
      (create_hyper_vector (cstrBytes "ENTITY_ACTIVE_FLAG") st).2).1
    (copy_hyper_vector
      (create_hyper_vector (cstrBytes "ENTITY_ACTIVE_FLAG") st).1
      (create_hyper_vector (cstrBytes "ENTITY_DORMANT_FLAG")
        (create_hyper_vector (cstrBytes "ENTITY_ACTIVE_FLAG") st).2).2).2).1

/-- C8 (amended): the self-modification block (part_000 lines 2746-2758) for
an entity whose trigger condition holds at the check and whose two
patch-pattern creations succeed, when it stays inside the modelled fragment,
records the proposal in the associative memory (a fresh valid entry stamped
with the pre-call tick; one net new entry when the memory is not full),
increments the global timestamp, broadcasts the in-proposal copy of the
replacement pattern to the collective — appended with its valid flag
force-set, one net new entry on a non-full buffer, when that copy came out
valid; rejected with the collective unchanged when its allocation failed —
and resets the entity's confidence to 0.5 and fitness to 0 (id and age
untouched).  Entities skipped earlier in the tick by the memory-pressure or
affordability guards never reach this block — see the counterexample. -/
theorem self_mod_trigger_fires (e : Entity) (c : List HyperVector)
    (mem : List MemoryEntry) (tick : ℕ) (st : AllocState)
    (e1 : Entity) (c1 : List HyperVector) (m1 : List MemoryEntry)
    (t1 : ℕ) (st1 : AllocState)
    (htrig : selfModTriggered e = true)
    (hbv : (create_hyper_vector (cstrBytes "ENTITY_ACTIVE_FLAG") st).1.valid
      = true)
    (hav : (create_hyper_vector (cstrBytes "ENTITY_DORMANT_FLAG")
      (create_hyper_vector (cstrBytes "ENTITY_ACTIVE_FLAG") st).2).1.valid
      = true)
    (hres : self_mod_phase e c mem tick st = some (e1, c1, m1, t1, st1)) :
    e1.confidence = 1 / 2 ∧ e1.fitness_score = 0 ∧ e1.id = e.id ∧
    e1.age = e.age ∧ t1 = tick + 1 ∧
    (∃ entry, m1.getLast? = some entry ∧ entry.timestamp = tick ∧
      entry.valid = true) ∧
    (mem.length < MAX_MEMORY_ENTRIES → m1.length = mem.length + 1) ∧
    ((selfModReplacementCopy st).valid = false → c1 = c) ∧
    ((selfModReplacementCopy st).valid = true →
      (c.length < MAX_THOUGHTS → c1.length = c.length + 1) ∧
      ∃ bc, c1.getLast? = some bc ∧ bc.valid = true) := by
  unfold self_mod_phase at hres
  rw [if_neg (by rw [htrig]; simp), if_pos ⟨hbv, hav⟩] at hres
  split at hres
  · exact absurd hres (by simp)
  · rename_i c2 m2 t2 st2 hp
    simp only [Option.some.injEq, Prod.mk.injEq] at hres
    obtain ⟨he, hc, hm, ht, hst⟩ := hres
    have hfacts := propose_effect _ _ _ _ _ _ _ _ _ _ hp
    exact ⟨by rw [← he], by rw [← he], by rw [← he], by rw [← he],
      by rw [← ht]; exact hfacts.1,
      by rw [← hm]; exact hfacts.2.1,
      by rw [← hm]; exact hfacts.2.2.1,
      by unfold selfModReplacementCopy; rw [← hc]; exact hfacts.2.2.2.1,
      by unfold selfModReplacementCopy; rw [← hc]; exact hfacts.2.2.2.2⟩

/-- Scenario C's entity: confidence 0.85, fitness 60, mutation_rate 150 —
the self-modification trigger holds. -/
def selfModEntity : Entity :=
  { id := 0, state := ⟨some 11, [], 2, 1, 0, true⟩, genome := [geneA],
    gene_count := 1, age := 3, interaction_count := 0, is_active := true,
    specialization_scores := [], resource_allocation := 1,
    confidence := 17 / 20, domain_name := "adaptive",
    task_vector := ⟨some 12, [], 2, 1, 0, true⟩, path_id := 0,
    task_alignment := 0, fitness_score := 60, spawn_count := 0,
    marked_for_gc := false, is_mutant := false, mutation_rate := 150 }

/-- Witness for self_mod_trigger_fires: from a fresh allocator the block
proposes (one new memory entry, timestamp bumped from 5 to 6), broadcasts
the replacement copy (the empty collective grows to one valid entry) and
resets confidence to 0.5 and fitness to 0. -/
theorem self_mod_trigger_fires_witness :
    ∃ e1 c1 m1 t1 st1,
      self_mod_phase selfModEntity [] [] 5 initAllocState =
        some (e1, c1, m1, t1, st1) ∧
      e1.confidence = 1 / 2 ∧ e1.fitness_score = 0 ∧ t1 = 6 ∧
      m1.length = 1 ∧ c1.length = 1 ∧
      ∃ bc, c1.getLast? = some bc ∧ bc.valid = true := by
  have htrig : selfModTriggered selfModEntity = true := by
    norm_num [selfModTriggered, selfModEntity]
  have hsome : (self_mod_phase selfModEntity [] [] 5 initAllocState).isSome
      = true := by
    unfold self_mod_phase
    rw [if_neg (by rw [htrig]; simp), if_pos ⟨rfl, rfl⟩]
    rfl
  obtain ⟨r, hr⟩ := Option.isSome_iff_exists.mp hsome
  obtain ⟨e1, c1, m1, t1, st1⟩ := r
  have hfacts := self_mod_trigger_fires selfModEntity [] [] 5 initAllocState
    e1 c1 m1 t1 st1 htrig rfl rfl hr
  have hvalid : (selfModReplacementCopy initAllocState).valid = true := rfl
  exact ⟨e1, c1, m1, t1, st1, hr, hfacts.1, hfacts.2.1,
    hfacts.2.2.2.2.1, hfacts.2.2.2.2.2.2.1 (by decide),
    (hfacts.2.2.2.2.2.2.2.2 hvalid).1 (by decide),
    (hfacts.2.2.2.2.2.2.2.2 hvalid).2⟩

/-- An allocator with only 1000 free bytes: memory pressure is above 0.8 and
a double vector copy is not affordable. -/
def tightAlloc : AllocState :=
  { heap_offset := KERNEL_HEAP_SIZE - 1000, free_metadata_list := [0, 1, 2],
    allocation_list := [], allocation_counter := 0 }

/-- A one-entity system whose sole entity satisfies the self-modification
trigger, under severe memory pressure. -/
def selfModSkipKS : KernelState :=
  { alloc := tightAlloc, entity_pool := [selfModEntity],
    active_entity_count := 1, collective := [], memory_pool := [],
    global_timestamp := 0 }

/-- C8 counterexample: the entity meets the trigger (confidence 0.85 > 0.8,
fitness 60 > 50, mutation_rate 150 > 100), but under memory pressure the
affordability guard forces a shallow skip BEFORE the self-modification
check: the tick completes with no proposal recorded (memory stays empty) and
confidence still 0.85 ≠ 0.5 — refuting the claim that every such entity
proposes and is reset in each tick. -/
theorem update_skip_no_selfmod_counterexample :
    selfModTriggered selfModEntity = true ∧
    (update_entities (fun _ _ => 0) selfModSkipKS).map
      (fun r => r.memory_pool.length) = some 0 ∧
    (update_entities (fun _ _ => 0) selfModSkipKS).map
      (fun r => (r.entity_pool.getD 0 zeroEntity).confidence) =
        some (17 / 20) ∧
    (17 : ℚ) / 20 ≠ 1 / 2 := by
  refine ⟨by norm_num [selfModTriggered, selfModEntity], rfl, rfl, by norm_num⟩

/-- Helper: the resonance loop never touches age or id. -/
theorem resonate_age_id (simFn : SimFn) (ts : List HyperVector) :
    ∀ e : Entity, (resonate simFn e ts).age = e.age ∧
      (resonate simFn e ts).id = e.id := by
  induction ts with
  | nil => intro e; exact ⟨rfl, rfl⟩
  | cons t rest ih =>
    intro e
    have hstep : (resonateStep simFn e t).age = e.age ∧
        (resonateStep simFn e t).id = e.id := by
      unfold resonateStep
      dsimp only
      split_ifs with hs
      · exact ⟨rfl, rfl⟩
      · exact ⟨rfl, rfl⟩
    have := ih (resonateStep simFn e t)
    unfold resonate at this ⊢
    simp only [List.foldl_cons]
    exact ⟨this.1.trans hstep.1, this.2.trans hstep.2⟩

/-- Helper: the self-modification block never touches age or id. -/
theorem self_mod_age_id (e : Entity) (c : List HyperVector)
    (mem : List MemoryEntry) (tick : ℕ) (st : AllocState) (e1 : Entity)
    (c1 : List HyperVector) (m1 : List MemoryEntry) (t1 : ℕ)
    (st1 : AllocState)
    (h : self_mod_phase e c mem tick st = some (e1, c1, m1, t1, st1)) :
    e1.age = e.age ∧ e1.id = e.id := by
  unfold self_mod_phase at h
  split_ifs at h with h1 h2
  · simp only [Option.some.injEq, Prod.mk.injEq] at h
    rw [← h.1]
    exact ⟨rfl, rfl⟩
  · split at h
    · exact absurd h (by simp)
    · simp only [Option.some.injEq, Prod.mk.injEq] at h
      rw [← h.1]
      exact ⟨rfl, rfl⟩
  · simp only [Option.some.injEq, Prod.mk.injEq] at h
    rw [← h.1]
    exact ⟨rfl, rfl⟩

/-- The frame a single phase-1 step guarantees at index i: the count and the
pool length are unchanged, other slots are untouched, and slot i (when
present) has aged by exactly one with its id intact. -/
def StepFrame (ctx ctx1 : UpdCtx) (i : ℕ) : Prop :=
  ctx1.count = ctx.count ∧ ctx1.pool.length = ctx.pool.length ∧
  (∀ j, j ≠ i → ctx1.pool[j]? = ctx.pool[j]?) ∧
  (∀ e, ctx.pool[i]? = some e →
    ∃ e1, ctx1.pool[i]? = some e1 ∧ e1.age = e.age + 1 ∧ e1.id = e.id)

/-- Helper: a write-back of an entity that aged by one yields the step
frame. -/
theorem writeBack_frame (ctx : UpdCtx) (i : ℕ) (e E : Entity)
    (hget : ctx.pool[i]? = some e) (hage : E.age = e.age + 1)
    (hid : E.id = e.id) (n : NextSlot) (c : List HyperVector)
    (mem : List MemoryEntry) (tick : ℕ) (st : AllocState) :
    StepFrame ctx (updWriteBack ctx i E n c mem tick st) i := by
  have hlt : i < ctx.pool.length := by
    rw [List.getElem?_eq_some] at hget
    exact hget.1
  refine ⟨rfl, List.length_set _ _ _, ?_, ?_⟩
  · intro j hj
    exact List.getElem?_set_ne (Ne.symm hj)
  · intro e2 hget2
    rw [hget2] at hget
    cases hget
    exact ⟨E, List.getElem?_set_self hlt, hage, hid⟩

/-- Every phase-1 step that stays inside the modelled fragment changes the
pool only at its own index, ages that entity by exactly one, and preserves
its id, the pool length and the count — on every control path (pressure
skip, forced skip, deep copy, activation, sleep, self-modification). -/
theorem update_entity_step_frame (simFn : SimFn) (ctx ctx1 : UpdCtx) (i : ℕ)
    (h : update_entity_step simFn ctx i = some ctx1) :
    StepFrame ctx ctx1 i := by
  unfold update_entity_step at h
  cases hget : ctx.pool[i]? with
  | none =>
    rw [hget] at h
    dsimp only at h
    simp only [Option.some.injEq] at h
    subst h
    refine ⟨rfl, rfl, fun j _ => rfl, fun e he => ?_⟩
    rw [hget] at he
    exact absurd he (by simp)
  | some e =>
    rw [hget] at h
    dsimp only at h
    split at h
    · simp only [Option.some.injEq] at h
      subst h
      refine writeBack_frame ctx i e _ hget ?_ ?_ _ _ _ _ _
      · rfl
      · rfl
    · split at h
      · simp only [Option.some.injEq] at h
        subst h
        refine writeBack_frame ctx i e _ hget ?_ ?_ _ _ _ _ _
        · rfl
        · rfl
      · split at h
        · split at h
          · simp only [Option.some.injEq] at h
            subst h
            refine writeBack_frame ctx i e _ hget ?_ ?_ _ _ _ _ _
            · exact (resonate_age_id _ _ _).1
            · exact (resonate_age_id _ _ _).2
          · split at h
            · exact absurd h (by simp)
            · rename_i c1 st1 hbr
              split at h
              · exact absurd h (by simp)
              · rename_i e4 c2 m2 t2 st2 hsm
                simp only [Option.some.injEq] at h
                subst h
                have hai := self_mod_age_id _ _ _ _ _ _ _ _ _ _ hsm
                refine writeBack_frame ctx i e _ hget ?_ ?_ _ _ _ _ _
                · exact hai.1.trans (resonate_age_id _ _ _).1
                · exact hai.2.trans (resonate_age_id _ _ _).2
        · split at h
          · split at h
            · simp only [Option.some.injEq] at h
              subst h
              refine writeBack_frame ctx i e _ hget ?_ ?_ _ _ _ _ _
              · exact (resonate_age_id _ _ _).1
              · exact (resonate_age_id _ _ _).2
            · split at h
              · exact absurd h (by simp)
              · rename_i e4 c2 m2 t2 st2 hsm
                simp only [Option.some.injEq] at h
                subst h
                have hai := self_mod_age_id _ _ _ _ _ _ _ _ _ _ hsm
                refine writeBack_frame ctx i e _ hget ?_ ?_ _ _ _ _ _
                · exact hai.1.trans (resonate_age_id _ _ _).1
                · exact hai.2.trans (resonate_age_id _ _ _).2
          · split at h
            · exact absurd h (by simp)
            · rename_i e4 c2 m2 t2 st2 hsm
              simp only [Option.some.injEq] at h
              subst h
              have hai := self_mod_age_id _ _ _ _ _ _ _ _ _ _ hsm
              refine writeBack_frame ctx i e _ hget ?_ ?_ _ _ _ _ _
              · exact hai.1.trans (resonate_age_id _ _ _).1
              · exact hai.2.trans (resonate_age_id _ _ _).2

/-- Frame of the whole phase-1 loop: slots at or beyond count untouched, ids
everywhere untouched, each processed slot aged by exactly one, count and
length preserved. -/
theorem phase1_frame (simFn : SimFn) (count : ℕ) (ctx0 ctx1 : UpdCtx)
    (h : phase1Fold simFn count ctx0 = some ctx1) :
    ctx1.count = ctx0.count ∧ ctx1.pool.length = ctx0.pool.length ∧
    (∀ j, count ≤ j → ctx1.pool[j]? = ctx0.pool[j]?) ∧
    (∀ j : ℕ, (ctx1.pool[j]?).map Entity.id = (ctx0.pool[j]?).map Entity.id) ∧
    (∀ j, j < count → ∀ e, ctx0.pool[j]? = some e →
      ∃ e1, ctx1.pool[j]? = some e1 ∧ e1.age = e.age + 1) := by
  induction count generalizing ctx1 with
  | zero =>
    unfold phase1Fold at h
    simp only [List.range_zero, List.foldl_nil, Option.some.injEq] at h
    subst h
    exact ⟨rfl, rfl, fun j _ => rfl, fun j => rfl, fun j hj => absurd hj (by omega)⟩
  | succ n ih =>
    unfold phase1Fold at h
    rw [List.range_succ, List.foldl_append] at h
    simp only [List.foldl_cons, List.foldl_nil] at h
    cases hmid : (List.range n).foldl
        (fun acc i => match acc with
          | none => none
          | some c => update_entity_step simFn c i) (some ctx0) with
    | none => rw [hmid] at h; simp at h
    | some ctxm =>
      rw [hmid] at h
      dsimp only at h
      have hindu := ih ctxm hmid
      have hstep := update_entity_step_frame simFn ctxm ctx1 n h
      obtain ⟨hc0, hl0, hout0, hid0, hage0⟩ := hindu
      obtain ⟨hc1, hl1, hout1, hslot1⟩ := hstep
      refine ⟨hc1.trans hc0, hl1.trans hl0, ?_, ?_, ?_⟩
      · intro j hj
        rw [hout1 j (by omega), hout0 j (by omega)]
      · intro j
        by_cases hjn : j = n
        · subst hjn
          cases hj : ctxm.pool[j]? with
          | none =>
            have hnone : ctx1.pool[j]? = none := by
              rw [List.getElem?_eq_none_iff] at hj ⊢
              rw [hl1]
              exact hj
            rw [hnone, ← hid0 j, hj]
          | some em =>
            obtain ⟨e1, he1, _, hid1⟩ := hslot1 em hj
            rw [he1, ← hid0 j, hj]
            simp [hid1]
        · rw [hout1 j hjn]
          exact hid0 j
      · intro j hj e he
        by_cases hjn : j = n
        · subst hjn
          have hmide : ctxm.pool[j]? = some e := by
            rw [hout0 j (le_refl _)]
            exact he
          obtain ⟨e1, he1, hage1, _⟩ := hslot1 e hmide
          exact ⟨e1, he1, hage1⟩
        · have hjlt : j < n := by omega
          obtain ⟨e1, he1, hage1⟩ := hage0 j hjlt e he
          refine ⟨e1, ?_, hage1⟩
          rw [hout1 j hjn]
          exact he1

/-- Helper: the phase-2 commit of one slot never touches age or id. -/
theorem commitSlot_age_id (e : Entity) (n : NextSlot) (st : AllocState)
    (e1 : Entity) (st1 : AllocState)
    (h : commitSlot e n st = some (e1, st1)) :
    e1.age = e.age ∧ e1.id = e.id := by
  unfold commitSlot at h
  split at h
  · exact absurd h (by simp)
  · split at h
    · exact absurd h (by simp)
    · simp only [Option.some.injEq, Prod.mk.injEq] at h
      rw [← h.1]
      exact ⟨rfl, rfl⟩

/-- Frame of one phase-2 commit step at index i. -/
theorem update_commit_step_frame (nxts : List NextSlot) (pool : List Entity)
    (st : AllocState) (i : ℕ) (pool1 : List Entity) (st1 : AllocState)
    (h : update_commit_step nxts (some (pool, st)) i = some (pool1, st1)) :
    pool1.length = pool.length ∧
    (∀ j, j ≠ i → pool1[j]? = pool[j]?) ∧
    (∀ j : ℕ, (pool1[j]?).map Entity.id = (pool[j]?).map Entity.id) ∧
    (∀ j : ℕ, (pool1[j]?).map Entity.age = (pool[j]?).map Entity.age) := by
  unfold update_commit_step at h
  dsimp only at h
  cases hge : pool[i]? with
  | none =>
    rw [hge] at h
    dsimp only at h
    simp only [Option.some.injEq, Prod.mk.injEq] at h
    rw [← h.1]
    exact ⟨rfl, fun j _ => rfl, fun j => rfl, fun j => rfl⟩
  | some e =>
    rw [hge] at h
    cases hgn : nxts[i]? with
    | none =>
      rw [hgn] at h
      dsimp only at h
      simp only [Option.some.injEq, Prod.mk.injEq] at h
      rw [← h.1]
      exact ⟨rfl, fun j _ => rfl, fun j => rfl, fun j => rfl⟩
    | some n =>
      rw [hgn] at h
      dsimp only at h
      cases hcs : commitSlot e n st with
      | none => rw [hcs] at h; simp at h
      | some pr =>
        obtain ⟨e1, sta⟩ := pr
        rw [hcs] at h
        dsimp only at h
        simp only [Option.some.injEq, Prod.mk.injEq] at h
        obtain ⟨hp, hs⟩ := h
        subst hp
        have hlt : i < pool.length := by
          rw [List.getElem?_eq_some] at hge
          exact hge.1
        have hai := commitSlot_age_id e n st e1 sta hcs
        refine ⟨List.length_set _ _ _, ?_, ?_, ?_⟩
        · intro j hj
          exact List.getElem?_set_ne (Ne.symm hj)
        · intro j
          by_cases hji : j = i
          · subst hji
            rw [List.getElem?_set_self hlt, hge]
            simp [hai.2]
          · rw [List.getElem?_set_ne (Ne.symm hji)]
        · intro j
          by_cases hji : j = i
          · subst hji
            rw [List.getElem?_set_self hlt, hge]
            simp [hai.1]
          · rw [List.getElem?_set_ne (Ne.symm hji)]

/-- Frame of the whole phase-2 loop: lengths, ids and ages everywhere
unchanged; slots at or beyond count untouched. -/
theorem phase2_frame (nxts : List NextSlot) (count : ℕ)
    (pool0 : List Entity) (st0 : AllocState) (pool1 : List Entity)
    (st1 : AllocState) (h : phase2Fold nxts count pool0 st0 = some (pool1, st1)) :
    pool1.length = pool0.length ∧
    (∀ j : ℕ, (pool1[j]?).map Entity.id = (pool0[j]?).map Entity.id) ∧
    (∀ j : ℕ, (pool1[j]?).map Entity.age = (pool0[j]?).map Entity.age) ∧
    (∀ j, count ≤ j → pool1[j]? = pool0[j]?) := by
  induction count generalizing pool1 st1 with
  | zero =>
    unfold phase2Fold at h
    simp only [List.range_zero, List.foldl_nil, Option.some.injEq,
      Prod.mk.injEq] at h
    rw [← h.1]
    exact ⟨rfl, fun j => rfl, fun j => rfl, fun j _ => rfl⟩
  | succ n ih =>
    unfold phase2Fold at h
    rw [List.range_succ, List.foldl_append] at h
    simp only [List.foldl_cons, List.foldl_nil] at h
    cases hmid : (List.range n).foldl (update_commit_step nxts)
        (some (pool0, st0)) with
    | none =>
      rw [hmid] at h
      simp [update_commit_step] at h
    | some pr =>
      obtain ⟨poolm, stm⟩ := pr
      rw [hmid] at h
      have hindu := ih poolm stm hmid
      have hstep := update_commit_step_frame nxts poolm stm n pool1 st1 h
      obtain ⟨hl0, hid0, hage0, hout0⟩ := hindu
      obtain ⟨hl1, hout1, hid1, hage1⟩ := hstep
      refine ⟨hl1.trans hl0, ?_, ?_, ?_⟩
      · intro j
        exact (hid1 j).trans (hid0 j)
      · intro j
        exact (hage1 j).trans (hage0 j)
      · intro j hj
        rw [hout1 j (by omega), hout0 j (by omega)]

/-- C10: a call to update_entities that stays inside the modelled fragment
leaves active_entity_count, the pool length and every entity's id unchanged,
increments the age of each of the first active_entity_count entities by
exactly one (on every control path: pressure skip, forced shallow
carry-forward, or the full transition work), and leaves all pool slots at or
beyond the count entirely untouched. -/
theorem update_entities_frame (simFn : SimFn) (ks ks1 : KernelState)
    (hrun : update_entities simFn ks = some ks1) :
    ks1.active_entity_count = ks.active_entity_count ∧
    ks1.entity_pool.length = ks.entity_pool.length ∧
    (∀ j : ℕ, (ks1.entity_pool[j]?).map Entity.id =
      (ks.entity_pool[j]?).map Entity.id) ∧
    (∀ j, j < ks.active_entity_count → ∀ e, ks.entity_pool[j]? = some e →
      ∃ e1, ks1.entity_pool[j]? = some e1 ∧ e1.age = e.age + 1) ∧
    (∀ j, ks.active_entity_count ≤ j →
      ks1.entity_pool[j]? = ks.entity_pool[j]?) := by
  unfold update_entities at hrun
  cases hph1 : phase1Fold simFn ks.active_entity_count
      { pool := ks.entity_pool, count := ks.active_entity_count,
        collective := ks.collective, mem := ks.memory_pool,
        tick := ks.global_timestamp, alloc := ks.alloc, nxt := [] } with
  | none => rw [hph1] at hrun; simp at hrun
  | some ctx1 =>
    rw [hph1] at hrun
    dsimp only at hrun
    cases hph2 : phase2Fold ctx1.nxt ks.active_entity_count ctx1.pool
        ctx1.alloc with
    | none => rw [hph2] at hrun; simp at hrun
    | some pr =>
      obtain ⟨pool2, st2⟩ := pr
      rw [hph2] at hrun
      dsimp only at hrun
      simp only [Option.some.injEq] at hrun
      subst hrun
      have h1 := phase1_frame simFn ks.active_entity_count _ ctx1 hph1
      have h2 := phase2_frame ctx1.nxt ks.active_entity_count ctx1.pool
        ctx1.alloc pool2 st2 hph2
      obtain ⟨hc1, hl1, hout1, hid1, hage1⟩ := h1
      obtain ⟨hl2, hid2, hage2, hout2⟩ := h2
      refine ⟨rfl, hl2.trans hl1, ?_, ?_, ?_⟩
      · intro j
        exact (hid2 j).trans (hid1 j)
      · intro j hj e he
        obtain ⟨e1, he1, hage⟩ := hage1 j hj e he
        have hm := hage2 j
        rw [he1] at hm
        cases hx : pool2[j]? with
        | none => rw [hx] at hm; simp at hm
        | some e2 =>
          rw [hx] at hm
          simp at hm
          exact ⟨e2, rfl, by rw [hm, hage]⟩
      · intro j hj
        rw [hout2 j hj, hout1 j hj]

/-- A two-entity system under high memory pressure: entity 0 (fitness 400)
is forced into the shallow carry-forward by the affordability guard, entity
1 (fitness 0) volunteers to skip under pressure. -/
def frameKS : KernelState :=
  { alloc := tightAlloc, entity_pool := [sampleEntity, gcBoundaryEntity],
    active_entity_count := 2, collective := [], memory_pool := [],
    global_timestamp := 9 }

/-- Witness for update_entities_frame: one tick over frameKS keeps the count
at 2 and both ids, and ages both entities by exactly one even though one
was pressure-skipped and the other forced into a shallow carry. -/
theorem update_entities_frame_witness :
    ∃ r, update_entities (fun _ _ => 0) frameKS = some r ∧
      r.active_entity_count = 2 ∧ r.entity_pool.length = 2 ∧
      (r.entity_pool[0]?).map Entity.id = some sampleEntity.id ∧
      (r.entity_pool[1]?).map Entity.id = some gcBoundaryEntity.id ∧
      (∃ e1, r.entity_pool[0]? = some e1 ∧ e1.age = sampleEntity.age + 1) ∧
      (∃ e1, r.entity_pool[1]? = some e1 ∧
        e1.age = gcBoundaryEntity.age + 1) := by
  have hs : (update_entities (fun _ _ => 0) frameKS).isSome = true := rfl
  obtain ⟨r, hr⟩ := Option.isSome_iff_exists.mp hs
  have h := update_entities_frame (fun _ _ => 0) frameKS r hr
  exact ⟨r, hr, h.1, h.2.1, h.2.2.1 0, h.2.2.1 1,
    h.2.2.2.1 0 (by decide) sampleEntity rfl,
    h.2.2.2.1 1 (by decide) gcBoundaryEntity rfl⟩
